/-
Verification of the output-emission core of the wild ELF linker
(`src/libwild/src/elf_writer.rs`), as a shallow embedding in Lean 4.

`u64` values are modelled as `Nat` with explicit `% 2^64` wherever the Rust
code performs wrapping arithmetic.  Fallible Rust functions returning
`Result` are modelled as `Except WriteError`; Rust panics are modelled with
the `WriteError.panicked` constructor.  Mutable cursors (exclusive-borrow
slice splitting in the source) are modelled as explicit state passing of
remaining-length counters plus journals of everything written.
-/
import Mathlib

namespace ElfWriter

/-- `2^64`, the modulus for `u64` arithmetic. -/
def M64 : Nat := 2 ^ 64

/-- `u64` wrapping subtraction (`u64::wrapping_sub`): `(a - b) mod 2^64`. -/
def wsub64 (a b : Nat) : Nat := (a % M64 + (M64 - b % M64)) % M64

/-- Reinterpret a `u64` value as an `i64` (two's-complement cast, `as i64`). -/
def toI64 (n : Nat) : Int :=
  if n % M64 < 2 ^ 63 then (n % M64 : Int) else (n % M64 : Int) - (M64 : Int)

/-- `u64::wrapping_add` with an `i64` addend (`value.wrapping_add(addend as u64)`). -/
def waddI64 (a : Nat) (i : Int) : Nat := (((a : Int) + i).emod (M64 : Int)).toNat

/-- `crate::elf::GOT_ENTRY_SIZE`.  Modelled from the spec: `.got` holds
machine-word (8-byte) entries. -/
def GOT_ENTRY_SIZE : Nat := 8

/-- `crate::elf::TLS_OFFSET_OFFSET`: byte offset of the offset entry within a
(module, offset) GOT pair — one GOT entry. -/
def TLS_OFFSET_OFFSET : Nat := 8

/-- `elf::CURRENT_EXE_TLS_MOD`.  Modelled from the spec: the current-exe TLS
module id is 1 (scenario S3: "module=1"). -/
def CURRENT_EXE_TLS_MOD : Nat := 1

/-- `elf::PLT_ENTRY_SIZE`.  Modelled from the spec: `.plt.got` holds fixed-size
instruction stubs; the exact stub size does not affect any claim. -/
def PLT_ENTRY_SIZE : Nat := 16

/-- `elf::RELA_ENTRY_SIZE`: size of an ELF64 `Rela` record. -/
def RELA_ENTRY_SIZE : Nat := 24

/-- `elf::GNU_VERSION_ENTRY_SIZE`: a `.gnu.version` entry is a `u16`. -/
def GNU_VERSION_ENTRY_SIZE : Nat := 2

/-- `elf::FDE_PC_BEGIN_OFFSET`: offset of the pc-begin field inside an FDE
(4-byte length + 4-byte CIE pointer). -/
def FDE_PC_BEGIN_OFFSET : Nat := 8

/-- Value flags of a resolution (spec §3: `ABSOLUTE | ADDRESS | DYNAMIC |
IFUNC | CAN_BYPASS_GOT`). -/
structure ValueFlags where
  absolute : Bool
  address : Bool
  dynamic : Bool
  ifunc : Bool
  canBypassGot : Bool
deriving DecidableEq

/-- Resolution flags (spec §3: `GOT | PLT | EXPORT_DYNAMIC | GOT_TLS_OFFSET |
GOT_TLS_MODULE | GOT_TLS_DESCRIPTOR | COPY_RELOCATION`). -/
structure ResolutionFlags where
  got : Bool
  plt : Bool
  exportDynamic : Bool
  gotTlsOffset : Bool
  gotTlsModule : Bool
  gotTlsDescriptor : Bool
  copyRelocation : Bool
deriving DecidableEq

/-- Modelled from the spec: the output kind.  Executables are static or
dynamic and may be position independent (PIE); PIE and shared objects are
relocatable (`e_type = ET_DYN` for relocatable outputs). -/
inductive OutputKind where
  | staticExecutable (relocatable : Bool)
  | dynamicExecutable (relocatable : Bool)
  | sharedObject
deriving DecidableEq

def OutputKind.isExecutable : OutputKind → Bool
  | .sharedObject => false
  | _ => true

def OutputKind.isRelocatable : OutputKind → Bool
  | .staticExecutable r => r
  | .dynamicExecutable r => r
  | .sharedObject => true

def OutputKind.isStaticExecutable : OutputKind → Bool
  | .staticExecutable _ => true
  | _ => false

/-- A symbol resolution (spec §3): raw value, optional GOT/PLT addresses,
value flags, resolution flags, optional dynamic-symbol index
(`Option<NonZeroU32>` in the source). -/
structure Resolution where
  rawValue : Nat
  dynamicSymbolIndex : Option Nat
  gotAddress : Option Nat
  pltAddress : Option Nat
  valueFlags : ValueFlags
  resolutionFlags : ResolutionFlags
deriving DecidableEq

/-- Error kinds produced by the writer (spec §7). -/
inductive WriteError where
  | insufficientAllocation (sectionName : String)
  | excessiveAllocation (sectionName : String) (remaining allocated : Nat)
  | symtabNotExhausted (isDynamic : Bool) (localLeft globalLeft stringsLeft : Nat)
  | missingDynamicSymbolIndex
  | tlsOutOfRange (address : Nat)
  | staticTlsDesc
  | notAnAddress
  | invalidEhFrame (msg : String)
  | overflow32 (what : String)
  | panicked (msg : String)
  | other (msg : String)
deriving DecidableEq

/-- Modelled from the spec: `Resolution::dynamic_symbol_index()` (defined
outside this file) returns the index or errors when the symbol has none. -/
def Resolution.dynamicSymbolIndexE (res : Resolution) : Except WriteError Nat :=
  match res.dynamicSymbolIndex with
  | some idx => .ok idx
  | none => .error .missingDynamicSymbolIndex

/-- Modelled from the spec: `Resolution::address()` (defined outside this
file) — the raw value is the symbol's address when the `ADDRESS` value flag
is set; taking the address of a non-address value is an error. -/
def Resolution.address (res : Resolution) : Except WriteError Nat :=
  if res.valueFlags.address then .ok res.rawValue else .error .notAnAddress

/-- Modelled from the spec: `Resolution::is_absolute` — the `ABSOLUTE` value
flag. -/
def Resolution.isAbsolute (res : Resolution) : Bool := res.valueFlags.absolute

/-- Modelled from the spec: `Resolution::plt_address()` errors when the
resolution has no PLT address. -/
def Resolution.pltAddressE (res : Resolution) : Except WriteError Nat :=
  match res.pltAddress with
  | some a => .ok a
  | none => .error (.other "Missing PLT address")

/-- The architecture-independent kind of a dynamic relocation
(`DynamicRelocationKind`); the arch module maps each kind to a raw `r_type`. -/
inductive DynRelKind where
  | dynamicSymbol
  | irelative
  | relative
  | dtpMod
  | dtpOff
  | tpOff
  | tlsDesc
deriving DecidableEq

/-- Journal entry for a relocation record written into `.rela.plt` or one of
the two `.rela.dyn` halves. -/
inductive EmittedRel where
  | relaPlt (offset : Nat) (kind : DynRelKind) (addend : Int)
  | relaDynRelative (place : Nat) (addend : Int)
  | relaDynGeneral (place : Nat) (symIndex : Nat) (kind : DynRelKind) (addend : Int)
deriving DecidableEq

/-- Cursor state of a `SymbolTableWriter`: remaining local/global symtab
entries and remaining string-table bytes. -/
structure SymbolTableWriter where
  localEntries : Nat
  globalEntries : Nat
  strtabOut : Nat
  isDynamic : Bool
deriving DecidableEq

/-- Cursor state of a `VersionWriter`: remaining `.gnu.version` entries (the
source stores `None` when the section slice was empty at construction),
remaining `.gnu.version_d` bytes and `.gnu.version_r` bytes. -/
structure VersionWriter where
  versym : Option Nat
  versionD : Nat
  versionR : Nat
deriving DecidableEq

/-- The per-part allocation sizes consulted for diagnostics (`mem_sizes`). -/
structure MemSizes where
  relaDynRelative : Nat
  relaDynGeneral : Nat
  gnuVersion : Nat
  gnuVersionR : Nat
  gnuVersionD : Nat
  ehFrame : Nat
  ehFrameHdr : Nat
deriving DecidableEq

/-- The per-group `TableWriter` (source lines 795-814): cursors into the
table sections.  Slice cursors are modelled as remaining lengths (entry
counts for typed slices, byte counts for raw-byte slices); everything
written through the cursors is recorded in journals (`gotEntries` holds the
final value of each consumed GOT entry — a fresh output buffer is
zero-filled, so an entry that is consumed but never assigned stays 0). -/
structure TableWriter where
  outputKind : OutputKind
  tlsStart : Nat
  tlsEnd : Nat
  gotRemaining : Nat
  gotEntries : List Nat
  pltGotRemaining : Nat
  relaPlt : Nat
  relaDynRelative : Nat
  relaDynGeneral : Nat
  emitted : List EmittedRel
  pltEntries : List (Nat × Nat)
  dynsymWriter : SymbolTableWriter
  debugSymbolWriter : SymbolTableWriter
  versionWriter : VersionWriter
  ehFrame : Nat
  ehFrameHdr : Nat
  dynamicRemaining : Nat
deriving DecidableEq

/-- `SymbolTableWriter::check_exhausted` (source lines 1390-1408). -/
def SymbolTableWriter.checkExhausted (w : SymbolTableWriter) : Except WriteError Unit :=
  if w.localEntries != 0 || w.globalEntries != 0 || w.strtabOut != 0 then
    .error (.symtabNotExhausted w.isDynamic w.localEntries w.globalEntries w.strtabOut)
  else
    .ok ()

/-- `VersionWriter::check_exhausted` (source lines 767-792). -/
def VersionWriter.checkExhausted (w : VersionWriter) (ms : MemSizes) : Except WriteError Unit := do
  match w.versym with
  | some versym =>
    if versym != 0 then
      throw (.excessiveAllocation ".gnu.version" (versym * GNU_VERSION_ENTRY_SIZE) ms.gnuVersion)
  | none => pure ()
  if w.versionR != 0 then
    throw (.excessiveAllocation ".gnu.version_r" w.versionR ms.gnuVersionR)
  if w.versionD != 0 then
    throw (.excessiveAllocation ".gnu.version_d" w.versionD ms.gnuVersionD)

/-- `TableWriter::validate_empty` (source lines 1046-1079).  Note which
cursors it checks: the two `.rela.dyn` halves, the two symbol-table writers,
the version writer, `.eh_frame` and `.eh_frame_hdr` — and which it does not:
`.got`, `.plt.got`, `.rela.plt` and `.dynamic`. -/
def TableWriter.validateEmpty (tw : TableWriter) (ms : MemSizes) : Except WriteError Unit := do
  if tw.relaDynRelative != 0 then
    throw (.excessiveAllocation ".rela.dyn (relative)"
      (tw.relaDynRelative * RELA_ENTRY_SIZE) ms.relaDynRelative)
  if tw.relaDynGeneral != 0 then
    throw (.excessiveAllocation ".rela.dyn (general)"
      (tw.relaDynGeneral * RELA_ENTRY_SIZE) ms.relaDynGeneral)
  tw.dynsymWriter.checkExhausted
  tw.debugSymbolWriter.checkExhausted
  tw.versionWriter.checkExhausted ms
  if tw.ehFrame != 0 then
    throw (.excessiveAllocation ".eh_frame" tw.ehFrame ms.ehFrame)
  if tw.ehFrameHdr != 0 then
    throw (.excessiveAllocation ".eh_frame_hdr" tw.ehFrameHdr ms.ehFrameHdr)

/-- `TableWriter::take_next_got_entry`: consume one GOT entry or fail with an
insufficient-allocation error.  The fresh entry starts as zero. -/
def TableWriter.takeNextGotEntry (tw : TableWriter) : Except WriteError TableWriter :=
  if tw.gotRemaining == 0 then .error (.insufficientAllocation ".got")
  else .ok { tw with gotRemaining := tw.gotRemaining - 1, gotEntries := tw.gotEntries ++ [0] }

/-- Assignment `*got_entry = value` through the `&mut u64` returned by the
most recent `take_next_got_entry`. -/
def TableWriter.setLastGot (tw : TableWriter) (value : Nat) : TableWriter :=
  { tw with gotEntries := tw.gotEntries.dropLast ++ [value] }

/-- `TableWriter::write_rela_dyn_general` / `take_rela_dyn` (source lines
1196-1218). -/
def TableWriter.writeRelaDynGeneral (tw : TableWriter) (place : Nat) (dynamicSymbolIndex : Nat)
    (kind : DynRelKind) (addend : Int) : Except WriteError TableWriter :=
  if tw.relaDynGeneral == 0 then .error (.insufficientAllocation ".rela.dyn (non-relative)")
  else .ok { tw with
    relaDynGeneral := tw.relaDynGeneral - 1,
    emitted := tw.emitted ++ [.relaDynGeneral place dynamicSymbolIndex kind addend] }

/-- `TableWriter::write_tpoff_relocation`. -/
def TableWriter.writeTpoffRelocation (tw : TableWriter) (place : Nat) (dynamicSymbolIndex : Nat)
    (addend : Int) : Except WriteError TableWriter :=
  tw.writeRelaDynGeneral place dynamicSymbolIndex .tpOff addend

/-- `TableWriter::write_dtpmod_relocation`. -/
def TableWriter.writeDtpmodRelocation (tw : TableWriter) (place : Nat)
    (dynamicSymbolIndex : Nat) : Except WriteError TableWriter :=
  tw.writeRelaDynGeneral place dynamicSymbolIndex .dtpMod 0

/-- `TableWriter::write_dtpoff_relocation`. -/
def TableWriter.writeDtpoffRelocation (tw : TableWriter) (place : Nat)
    (dynamicSymbolIndex : Nat) : Except WriteError TableWriter :=
  tw.writeRelaDynGeneral place dynamicSymbolIndex .dtpOff 0

/-- `TableWriter::write_tls_descriptor_relocation`. -/
def TableWriter.writeTlsDescriptorRelocation (tw : TableWriter) (place : Nat)
    (dynamicSymbolIndex : Nat) (addend : Int) : Except WriteError TableWriter :=
  tw.writeRelaDynGeneral place dynamicSymbolIndex .tlsDesc addend

/-- `TableWriter::write_dynamic_symbol_relocation` (GLOB_DAT-equivalent,
`DynamicRelocationKind::DynamicSymbol`), source lines 1172-1194. -/
def TableWriter.writeDynamicSymbolRelocation (tw : TableWriter) (place : Nat) (addend : Int)
    (symbolIndex : Nat) : Except WriteError TableWriter :=
  if tw.relaDynGeneral == 0 then .error (.insufficientAllocation ".rela.dyn (non-relative)")
  else .ok { tw with
    relaDynGeneral := tw.relaDynGeneral - 1,
    emitted := tw.emitted ++ [.relaDynGeneral place symbolIndex .dynamicSymbol addend] }

/-- `TableWriter::write_address_relocation` (RELATIVE, into `.rela.dyn
(relative)`), source lines 1155-1170. -/
def TableWriter.writeAddressRelocation (tw : TableWriter) (place : Nat)
    (relativeAddress : Int) : Except WriteError TableWriter :=
  if tw.relaDynRelative == 0 then .error (.insufficientAllocation ".rela.dyn (relative)")
  else .ok { tw with
    relaDynRelative := tw.relaDynRelative - 1,
    emitted := tw.emitted ++ [.relaDynRelative place relativeAddress] }

/-- `TableWriter::write_ifunc_relocation` (source lines 1081-1098): take one
`.rela.plt` slot (the source's slice-split panics when the slot is missing),
offset = GOT address, type IRELATIVE, addend = raw value. -/
def TableWriter.writeIfuncRelocation (tw : TableWriter) (res : Resolution) :
    Except WriteError TableWriter := do
  if tw.relaPlt == 0 then
    throw (.panicked "slice_take_prefix_mut: .rela.plt exhausted")
  match res.gotAddress with
  | none => throw (.other "Missing GOT entry for ifunc")
  | some gotAddress =>
    pure { tw with
      relaPlt := tw.relaPlt - 1,
      emitted := tw.emitted ++ [.relaPlt gotAddress .irelative (toI64 res.rawValue)] }

/-- `TableWriter::take_plt_got_entry` + `write_plt_entry` (source lines
1026-1039): consume one PLT stub slot and record the (got, plt) pair handed
to the architecture module. -/
def TableWriter.writePltEntry (tw : TableWriter) (gotAddress pltAddress : Nat) :
    Except WriteError TableWriter :=
  if tw.pltGotRemaining < PLT_ENTRY_SIZE then
    .error (.other "Didn't allocate enough space in .plt.got")
  else .ok { tw with
    pltGotRemaining := tw.pltGotRemaining - PLT_ENTRY_SIZE,
    pltEntries := tw.pltEntries ++ [(gotAddress, pltAddress)] }

/-- `TableWriter::process_got_tls_offset` (source lines 929-965). -/
def TableWriter.processGotTlsOffset (tw : TableWriter) (res : Resolution) (gotAddress : Nat) :
    Except WriteError TableWriter := do
  let tw ← tw.takeNextGotEntry
  if res.valueFlags.dynamic ||
      (res.resolutionFlags.exportDynamic && !res.valueFlags.canBypassGot) then
    let idx ← res.dynamicSymbolIndexE
    tw.writeTpoffRelocation gotAddress idx 0
  else
    let address := res.rawValue
    if address == 0 then
      -- Resolution is undefined.
      pure (tw.setLastGot 0)
    else if tw.tlsStart ≤ address ∧ address ≤ tw.tlsEnd then
      if tw.outputKind.isExecutable then
        -- Offset relative to the TCB, which is the end of the TLS segment.
        pure (tw.setLastGot (wsub64 address tw.tlsEnd))
      else
        tw.writeTpoffRelocation gotAddress 0 (toI64 (address - tw.tlsStart))
    else
      throw (.tlsOutOfRange address)

/-- `TableWriter::process_got_tls_mod` (source lines 967-994). -/
def TableWriter.processGotTlsMod (tw : TableWriter) (res : Resolution) (gotAddress : Nat) :
    Except WriteError TableWriter := do
  let tw ← tw.takeNextGotEntry
  let tw ←
    if tw.outputKind.isExecutable then
      pure (tw.setLastGot CURRENT_EXE_TLS_MOD)
    else
      tw.writeDtpmodRelocation gotAddress (res.dynamicSymbolIndex.getD 0)
  let tw ← tw.takeNextGotEntry
  match res.dynamicSymbolIndex with
  | some dynamicSymbolIndex =>
    if !res.valueFlags.canBypassGot then
      tw.writeDtpoffRelocation (gotAddress + TLS_OFFSET_OFFSET) dynamicSymbolIndex
    else
      pure tw
  | none =>
    -- Convert the address to an offset within the TLS segment.
    let address ← res.address
    pure (tw.setLastGot (wsub64 address tw.tlsStart))

/-- `TableWriter::process_got_tls_descriptor` (source lines 996-1024). -/
def TableWriter.processGotTlsDescriptor (tw : TableWriter) (res : Resolution) (gotAddress : Nat) :
    Except WriteError TableWriter := do
  -- TLS descriptor occupies 2 entries.
  let tw ← tw.takeNextGotEntry
  let tw ← tw.takeNextGotEntry
  if tw.outputKind.isStaticExecutable then
    throw .staticTlsDesc
  let addend : Int :=
    if res.dynamicSymbolIndex.isNone then toI64 (wsub64 res.rawValue tw.tlsStart) else 0
  tw.writeTlsDescriptorRelocation gotAddress (res.dynamicSymbolIndex.getD 0) addend

/-- `TableWriter::process_resolution` (source lines 875-927). -/
def TableWriter.processResolution (tw : TableWriter) (res : Resolution) :
    Except WriteError TableWriter := do
  match res.gotAddress with
  | none => pure tw
  | some gotAddress =>
    let resolutionFlags := res.resolutionFlags
    if resolutionFlags.gotTlsOffset || resolutionFlags.gotTlsModule ||
        resolutionFlags.gotTlsDescriptor then
      let st ←
        if resolutionFlags.gotTlsOffset then do
          let tw ← tw.processGotTlsOffset res gotAddress
          pure (tw, gotAddress + GOT_ENTRY_SIZE)
        else
          pure (tw, gotAddress)
      let st ←
        if resolutionFlags.gotTlsModule then do
          let tw ← st.1.processGotTlsMod res st.2
          pure (tw, st.2 + 2 * GOT_ENTRY_SIZE)
        else
          pure st
      if resolutionFlags.gotTlsDescriptor then
        st.1.processGotTlsDescriptor res st.2
      else
        pure st.1
    else
      let tw ← tw.takeNextGotEntry
      let tw ←
        if res.valueFlags.dynamic ||
            (resolutionFlags.exportDynamic && !res.valueFlags.canBypassGot)
              && !res.valueFlags.ifunc then do
          let idx ← res.dynamicSymbolIndexE
          tw.writeDynamicSymbolRelocation gotAddress 0 idx
        else if res.valueFlags.ifunc then
          tw.writeIfuncRelocation res
        else
          let tw := tw.setLastGot res.rawValue
          if res.valueFlags.address && tw.outputKind.isRelocatable then
            tw.writeAddressRelocation gotAddress (toI64 res.rawValue)
          else
            pure tw
      match res.pltAddress with
      | some pltAddress => tw.writePltEntry gotAddress pltAddress
      | none => pure tw

/-- Writability and address of the section a relocation patches. -/
structure SectionInfo where
  sectionAddress : Nat
  isWritable : Bool
deriving DecidableEq

/-- `write_absolute_relocation` (source lines 2226-2265).  The source calls
`resolution.value_with_addend(...)` (symbol value + addend with
merged-string resolution, computed outside this function); its result is
passed in as `vwa`.  Returns the updated table writer and the value to
patch into the section bytes. -/
def writeAbsoluteRelocation (tw : TableWriter) (res : Resolution) (place : Nat) (addend : Int)
    (info : SectionInfo) (vwa : Except WriteError Nat) :
    Except WriteError (TableWriter × Nat) := do
  if res.valueFlags.dynamic && info.isWritable then
    let idx ← res.dynamicSymbolIndexE
    let tw ← tw.writeDynamicSymbolRelocation place addend idx
    pure (tw, 0)
  else if tw.outputKind.isRelocatable && !res.isAbsolute then
    let address ← vwa
    let tw ← tw.writeAddressRelocation place (toI64 address)
    pure (tw, 0)
  else if res.valueFlags.ifunc then
    let plt ← res.pltAddressE
    pure (tw, waddI64 plt addend)
  else
    let v ← vwa
    pure (tw, v)

/-- `SectionAllocation` (source lines 187-192). -/
structure SectionAllocation where
  id : Nat
  offset : Nat
  size : Nat
deriving DecidableEq

/-- The sort key of `split_output_into_sections`:
`sort_by_key(|s| (s.offset, s.offset + s.size))`, as a boolean lexicographic
comparison for `List.mergeSort` (Rust's stable sort). -/
def SectionAllocation.le (a b : SectionAllocation) : Bool :=
  a.offset < b.offset || (a.offset == b.offset && a.offset + a.size ≤ b.offset + b.size)

/-- The cursor walk of `split_output_into_sections` (source lines 562-573)
over the already-sorted allocations.  `remaining` is the length of the
not-yet-split tail of the output buffer and `offset` the file-offset cursor.
Each allocation is handed the byte range `[a.offset, a.offset + a.size)`:
first the padding `a.offset - offset` is peeled off, then `a.size` bytes.
`none` models the source's panics: "Offsets went backward" when
`a.offset < offset` (a failed `checked_sub`), and the slice-split panic when
the buffer is too short. -/
def splitLoop : Nat → Nat → List SectionAllocation → Option (List (Nat × Nat × Nat))
  | _, _, [] => some []
  | remaining, offset, a :: rest =>
    if a.offset < offset then
      none
    else
      let padding := a.offset - offset
      if remaining < padding then
        none
      else
        let remaining := remaining - padding
        if remaining < a.size then
          none
        else
          ((a.id, a.offset, a.size) :: ·) <$>
            splitLoop (remaining - a.size) (a.offset + a.size) rest

/-- `split_output_into_sections` (source lines 544-575): sort the section
allocations by `(file_offset, file_offset + file_size)`, then walk the output
buffer handing each section its slice.  The result records, per section in
sorted order, `(id, file_offset, file_size)` of the slice handed out. -/
def splitOutputIntoSections (bufferLen : Nat) (sectionLayouts : List SectionAllocation) :
    Option (List (Nat × Nat × Nat)) :=
  splitLoop bufferLen 0 (sectionLayouts.mergeSort SectionAllocation.le)

/-- An `.eh_frame_hdr` table entry (`elf::EhFrameHdrEntry`): two `i32`
fields, `frame_ptr` and `frame_info_ptr`. -/
structure EhFrameHdrEntry where
  framePtr : Int
  frameInfoPtr : Int
deriving DecidableEq

/-- `sort_eh_frame_hdr_entries` (source lines 577-582): stable sort of the
entries that follow the `EhFrameHdr` header by their `frame_ptr` field. -/
def sortEhFrameHdrEntries (entries : List EhFrameHdrEntry) : List EhFrameHdrEntry :=
  entries.mergeSort (fun a b => a.framePtr ≤ b.framePtr)

/-- `BuildIdOption`. -/
inductive BuildIdOption where
  | none
  | fast
  | hex (bytes : List Nat)
  | uuid
deriving DecidableEq

/-- The build-id payload selected by `SizedOutput::write_gnu_build_id_note`
(source lines 407-442).  The BLAKE3 library is out of scope for the spec, so
the hash is passed in as a pure function `blake3` of the whole output
buffer (`compute_hash`, line 444-447); the fresh random v4 UUID drawn in
`Uuid` mode is likewise passed in as `freshUuid`.  Returns `Option.none`
when no note is written. -/
def buildIdPayload (blake3 : List Nat → List Nat) (freshUuid : List Nat)
    (buildIdOption : BuildIdOption) (out : List Nat) : Option (List Nat) :=
  match buildIdOption with
  | .fast => some (blake3 out)
  | .hex hex => some hex
  | .uuid => some freshUuid
  | .none => Option.none

/-- The tail phase of `SizedOutput::write` (source lines 392-405) acting on
the `.eh_frame_hdr` section: after `write_file_contents`, if
`should_write_eh_frame_hdr` is set, the entries following the header are
sorted by `frame_ptr`. -/
def SizedOutput.writeEhHdrPhase (shouldWriteEhFrameHdr : Bool)
    (entries : List EhFrameHdrEntry) : List EhFrameHdrEntry :=
  if shouldWriteEhFrameHdr then sortEhFrameHdrEntries entries else entries

/-- `size_of::<elf::EhFrameHdrEntry>()`: two `i32` fields. -/
def EH_FRAME_HDR_ENTRY_SIZE : Nat := 8

/-- `u64` wrapping of a `Nat`. -/
def wrap64 (n : Nat) : Nat := n % M64

/-- Cast an `i64` to a `u64` (`as u64`). -/
def asU64 (i : Int) : Nat := (i.emod (M64 : Int)).toNat

/-- `TableWriter::take_eh_frame_hdr_entry` (source lines 1226-1235): returns
`none` when the cursor is empty — not an insufficient-allocation error; a
non-empty cursor shorter than one entry would hit the slice-split panic. -/
def TableWriter.takeEhFrameHdrEntry (tw : TableWriter) : Except WriteError (Option TableWriter) :=
  if tw.ehFrameHdr == 0 then .ok Option.none
  else if tw.ehFrameHdr < EH_FRAME_HDR_ENTRY_SIZE then
    .error (.panicked "slice_take_prefix_mut: .eh_frame_hdr")
  else .ok (some { tw with ehFrameHdr := tw.ehFrameHdr - EH_FRAME_HDR_ENTRY_SIZE })

/-- Byte `i` of a byte list (out-of-range reads as 0; the source only reads
in-range). -/
def byteAt (data : List Nat) (i : Nat) : Nat := data.getD i 0

/-- Little-endian `u32` read at `pos` (the `EhFrameEntryPrefix` fields). -/
def readU32 (data : List Nat) (pos : Nat) : Nat :=
  byteAt data pos + 256 * byteAt data (pos + 1) + 65536 * byteAt data (pos + 2) +
    16777216 * byteAt data (pos + 3)

/-- `u32::to_le_bytes`. -/
def u32Bytes (n : Nat) : List Nat :=
  [n % 256, n / 256 % 256, n / 65536 % 256, n / 16777216 % 256]

/-- An input `.eh_frame` relocation record as consumed by
`write_eh_frame_data`: offset, optional symbol index (`None` = absolute),
addend. -/
structure EhRel where
  rOffset : Nat
  symbol : Option Nat
  rAddend : Int
deriving DecidableEq

/-- The object-file facts `write_eh_frame_data` consults for an FDE's
pc-begin relocation: the symbol's `st_value`, the section the symbol is
defined in (`none` = not defined in the file, an error), and the section
resolution's address (`none` = the section is dead, the FDE is dropped). -/
structure EhObjectEnv where
  symValue : Nat → Nat
  symSection : Nat → Option Nat
  sectionAddress : Nat → Option Nat

/-- The fields of the group's `TableWriter` that `write_eh_frame_data`
itself reads or writes, plus a journal `ehOut` of the bytes copied into the
`.eh_frame` output and the state `relSt` threaded through
`apply_relocation`.  `apply_relocation` (the relocation engine plus the
dynamic-relocation emission of `write_absolute_relocation`) never touches
the `.eh_frame` or `.eh_frame_hdr` cursors, so its effect is abstracted as
an arbitrary function of `relSt` and the entry bytes. -/
structure EhFrameState (σ : Type) where
  ehFrameRemaining : Nat
  ehFrameHdrRemaining : Nat
  hdrEntries : List EhFrameHdrEntry
  ehOut : List Nat
  relSt : σ

/-- The inner loop of `write_eh_frame_data` (source lines 1802-1830) that
applies every relocation falling inside the kept entry's input range to the
entry's output bytes, consuming them from the head of the relocation list. -/
def applyLoop {σ : Type}
    (applyRel : σ → EhRel → Nat → Nat → List Nat → Except WriteError (σ × List Nat))
    (inputPos nextInputPos sectionAddress : Nat) :
    List EhRel → σ → List Nat → Except WriteError (σ × List Nat × List EhRel)
  | [], s, bytes => .ok (s, bytes, [])
  | rel :: rest, s, bytes =>
    if rel.rOffset < nextInputPos then do
      let r ← applyRel s rel (rel.rOffset - inputPos) sectionAddress bytes
      applyLoop applyRel inputPos nextInputPos sectionAddress rest r.1 r.2
    else
      -- This relocation belongs to the next entry.
      .ok (s, bytes, rel :: rest)

/-- Skipped entry: drop the relocations that fall inside it (source lines
1833-1841). -/
def dropRels : Nat → List EhRel → List EhRel
  | _, [] => []
  | nextInputPos, rel :: rest =>
    if rel.rOffset < nextInputPos then dropRels nextInputPos rest else rel :: rest

/-- The `.eh_frame_hdr` entry write of `write_eh_frame_data` (source lines
1773-1786): `take_eh_frame_hdr_entry` yields `none` on an empty cursor and
the entry is skipped; otherwise the two pointers are range-checked as `i32`
and the entry is appended. -/
def hdrStep (hdrRemaining : Nat) (hdrEntries : List EhFrameHdrEntry)
    (framePtr frameInfoPtr : Int) :
    Except WriteError (Nat × List EhFrameHdrEntry) :=
  if hdrRemaining == 0 then .ok (hdrRemaining, hdrEntries)
  else if hdrRemaining < EH_FRAME_HDR_ENTRY_SIZE then
    .error (.panicked "slice_take_prefix_mut: .eh_frame_hdr")
  else if -(2 ^ 31) ≤ framePtr ∧ framePtr < 2 ^ 31 then
    if -(2 ^ 31) ≤ frameInfoPtr ∧ frameInfoPtr < 2 ^ 31 then
      .ok (hdrRemaining - EH_FRAME_HDR_ENTRY_SIZE,
        hdrEntries ++ [⟨framePtr, frameInfoPtr⟩])
    else .error (.overflow32 "frame_info_ptr")
  else .error (.overflow32 "frame_ptr")

/-- Kept entry (source lines 1796-1831): take `size` bytes from the
`.eh_frame` cursor, copy the entry, rewrite the CIE back-pointer (bytes
4..8) when `outputCieOffset` is set, then apply the entry's relocations.
Returns the not-yet-consumed relocations and the updated state. -/
def ehKeep {σ : Type}
    (applyRel : σ → EhRel → Nat → Nat → List Nat → Except WriteError (σ × List Nat))
    (data : List Nat) (ehFrameStartAddress : Nat) (inputPos size outputPos : Nat)
    (outputCieOffset : Option Nat) (rels : List EhRel) (st : EhFrameState σ) :
    Except WriteError (List EhRel × EhFrameState σ) := do
  if st.ehFrameRemaining < size then
    throw (.insufficientAllocation ".eh_frame")
  let entryOut := (data.drop inputPos).take size
  let entryOut :=
    match outputCieOffset with
    | some off => entryOut.take 4 ++ u32Bytes off ++ entryOut.drop 8
    | none => entryOut
  let r ← applyLoop applyRel inputPos (inputPos + size) (outputPos + ehFrameStartAddress)
    rels st.relSt entryOut
  pure (r.2.2, { st with
    ehFrameRemaining := st.ehFrameRemaining - size,
    ehOut := st.ehOut ++ r.2.1,
    relSt := r.1 })

/-- The entry walk of `write_eh_frame_data` (source lines 1723-1844): parse
the 4-byte length prefix, classify CIE (zero `cie_id`) vs FDE, decide
liveness from the pc-begin relocation, emit the `.eh_frame_hdr` entry when
the cursor still has room, rewrite the FDE's CIE back-pointer via the
input-offset → output-offset map, and copy kept entries.  Returns the final
`(input_pos, output_pos)` and state.  The walk advances `input_pos` by at
least 4 per step, so `data.length + 1` fuel always suffices; running out of
fuel is modelled as an unreachable panic. -/
def ehLoop {σ : Type}
    (applyRel : σ → EhRel → Nat → Nat → List Nat → Except WriteError (σ × List Nat))
    (env : EhObjectEnv) (data : List Nat) (ehFrameStartAddress ehFrameHdrAddress : Nat) :
    Nat → Nat → Nat → List (Nat × Nat) → List EhRel → EhFrameState σ →
    Except WriteError (Nat × Nat × EhFrameState σ)
  | 0, _, _, _, _, _ => .error (.panicked "out of fuel")
  | fuel + 1, inputPos, outputPos, cies, rels, st =>
    if inputPos + 8 ≤ data.length then
      let length := readU32 data inputPos
      let cieId := readU32 data (inputPos + 4)
      let size := 4 + length
      let nextInputPos := inputPos + size
      if data.length < nextInputPos then
        .error (.invalidEhFrame "Invalid .eh_frame data")
      else if cieId == 0 then do
        -- This is a CIE: remember its input → output offset and keep it.
        let r ← ehKeep applyRel data ehFrameStartAddress inputPos size outputPos none rels st
        ehLoop applyRel env data ehFrameStartAddress ehFrameHdrAddress
          fuel nextInputPos (outputPos + size) ((inputPos, outputPos) :: cies) r.1 r.2
      else
        -- This is an FDE.
        match rels with
        | rel :: _ =>
          if rel.rOffset < nextInputPos then
            if rel.rOffset - inputPos == FDE_PC_BEGIN_OFFSET then
              match rel.symbol with
              | none => .error (.invalidEhFrame "Unexpected absolute relocation in .eh_frame pc-begin")
              | some index =>
                match env.symSection index with
                | none =>
                  .error (.invalidEhFrame ".eh_frame pc-begin refers to symbol that's not defined in file")
                | some sectionIndex =>
                  let offsetInSection := asU64 (toI64 (env.symValue index) + rel.rAddend)
                  match env.sectionAddress sectionIndex with
                  | some sectionAddress =>
                    let ciePointerPos := inputPos + 4
                    if ciePointerPos < cieId then
                      .error (.invalidEhFrame "CIE pointer is out of range")
                    else do
                      let inputCiePos := ciePointerPos - cieId
                      let framePtr := toI64 (wrap64 (sectionAddress + offsetInSection)) -
                        toI64 ehFrameHdrAddress
                      let frameInfoPtr := toI64 (wrap64 (ehFrameStartAddress + outputPos)) -
                        toI64 ehFrameHdrAddress
                      let h ← hdrStep st.ehFrameHdrRemaining st.hdrEntries framePtr frameInfoPtr
                      match cies.lookup inputCiePos with
                      | none => .error (.invalidEhFrame "FDE referenced CIE at unknown position")
                      | some outputCiePos => do
                        let outputCieOffset := outputPos + 4 - outputCiePos
                        let r ← ehKeep applyRel data ehFrameStartAddress inputPos size outputPos
                          (some outputCieOffset) rels
                          { st with ehFrameHdrRemaining := h.1, hdrEntries := h.2 }
                        ehLoop applyRel env data ehFrameStartAddress ehFrameHdrAddress
                          fuel nextInputPos (outputPos + size) cies r.1 r.2
                  | none =>
                    -- Target section is dead: drop the FDE and its relocations.
                    ehLoop applyRel env data ehFrameStartAddress ehFrameHdrAddress
                      fuel nextInputPos outputPos cies (dropRels nextInputPos rels) st
            else
              ehLoop applyRel env data ehFrameStartAddress ehFrameHdrAddress
                fuel nextInputPos outputPos cies (dropRels nextInputPos rels) st
          else
            ehLoop applyRel env data ehFrameStartAddress ehFrameHdrAddress
              fuel nextInputPos outputPos cies (dropRels nextInputPos rels) st
        | [] =>
          ehLoop applyRel env data ehFrameStartAddress ehFrameHdrAddress
            fuel nextInputPos outputPos cies (dropRels nextInputPos rels) st
    else
      .ok (inputPos, outputPos, st)

/-- `ObjectLayout::write_eh_frame_data` (source lines 1702-1859): walk the
entries, then copy any trailing bytes too short to form an entry (the
`u32 = 0` terminator).  Returns the final `output_pos` (the amount by which
the source advances `eh_frame_start_address`) and the final state. -/
def writeEhFrameData {σ : Type}
    (applyRel : σ → EhRel → Nat → Nat → List Nat → Except WriteError (σ × List Nat))
    (env : EhObjectEnv) (data : List Nat) (ehFrameStartAddress ehFrameHdrAddress : Nat)
    (rels : List EhRel) (st : EhFrameState σ) :
    Except WriteError (Nat × EhFrameState σ) := do
  let r ← ehLoop applyRel env data ehFrameStartAddress ehFrameHdrAddress
    (data.length + 1) 0 0 [] rels st
  let inputPos := r.1
  let outputPos := r.2.1
  let st := r.2.2
  let remaining := data.length - inputPos
  if remaining > 0 then
    if st.ehFrameRemaining < remaining then
      throw (.insufficientAllocation ".eh_frame")
    pure (outputPos + remaining, { st with
      ehFrameRemaining := st.ehFrameRemaining - remaining,
      ehOut := st.ehOut ++ (data.drop inputPos).take remaining })
  else
    pure (outputPos, st)

/-- Forgetting the `.eh_frame_hdr` cursor: the state of a group whose layout
gave `.eh_frame_hdr` no allocation. -/
def EhFrameState.eraseHdr {σ : Type} (st : EhFrameState σ) : EhFrameState σ :=
  { st with ehFrameHdrRemaining := 0, hdrEntries := [] }

/-! ### Helper lemmas -/

theorem except_bind_ok {ε α β : Type} {x : Except ε α} {f : α → Except ε β} {b : β} :
    (x >>= f) = .ok b ↔ ∃ a, x = .ok a ∧ f a = .ok b := by
  cases x <;> simp [Bind.bind, Except.bind]

theorem except_bind_ok' {ε α β : Type} {x : Except ε α} {f : α → Except ε β} {b : β} :
    x.bind f = .ok b ↔ ∃ a, x = .ok a ∧ f a = .ok b := by
  cases x <;> simp [Except.bind]

theorem except_pure_ok {ε α : Type} {a b : α} :
    (pure a : Except ε α) = .ok b ↔ a = b := by
  simp [pure, Except.pure]

/-! ### C7: `.eh_frame_hdr` sorting -/

/-- C7: after `SizedOutput::write` (with the `.eh_frame_hdr` section being
written), the `.eh_frame_hdr` entries following the header are sorted
non-decreasing by `frame_ptr`: every adjacent pair is ordered. -/
theorem ehFrameHdr_sorted_after_write (shouldWriteEhFrameHdr : Bool)
    (entries : List EhFrameHdrEntry) (h : shouldWriteEhFrameHdr = true) :
    List.Chain' (fun a b => a.framePtr ≤ b.framePtr)
      (SizedOutput.writeEhHdrPhase shouldWriteEhFrameHdr entries) := by
  subst h
  unfold SizedOutput.writeEhHdrPhase sortEhFrameHdrEntries
  simp only [if_true]
  apply List.Pairwise.chain'
  have := @List.sorted_mergeSort EhFrameHdrEntry
    (fun a b : EhFrameHdrEntry => decide (a.framePtr ≤ b.framePtr))
    (fun a b c hab hbc => by
      simp only [decide_eq_true_eq] at *
      exact le_trans hab hbc)
    (fun a b => by
      rcases Int.le_total a.framePtr b.framePtr with h' | h' <;> simp [h'])
    entries
  exact this.imp (by simp)

theorem ehFrameHdr_sorted_after_write_witness :
    true = true ∧
      List.Chain' (fun a b => a.framePtr ≤ b.framePtr)
        (SizedOutput.writeEhHdrPhase true
          [⟨3, 0⟩, ⟨1, 5⟩, ⟨2, 4⟩]) :=
  ⟨rfl, ehFrameHdr_sorted_after_write true [⟨3, 0⟩, ⟨1, 5⟩, ⟨2, 4⟩] rfl⟩

/-! ### C8: build-ID determinism in `Fast` mode -/

/-- C8: with `build_id = Fast` the note payload is the BLAKE3 hash of the
output buffer, and for two runs whose buffers hold identical bytes the
payload is byte-identical regardless of the fresh UUID randomness (which
only the `Uuid` mode consumes). -/
theorem buildIdFast_deterministic (blake3 : List Nat → List Nat)
    (uuid1 uuid2 out1 out2 : List Nat) (h : out1 = out2) :
    buildIdPayload blake3 uuid1 .fast out1 = some (blake3 out1) ∧
      buildIdPayload blake3 uuid1 .fast out1 = buildIdPayload blake3 uuid2 .fast out2 := by
  subst h
  exact ⟨rfl, rfl⟩

theorem buildIdFast_deterministic_witness :
    [1, 2, 3] = [1, 2, 3] ∧
      (buildIdPayload List.reverse [9] .fast [1, 2, 3] = some (List.reverse [1, 2, 3]) ∧
        buildIdPayload List.reverse [9] .fast [1, 2, 3] =
          buildIdPayload List.reverse [7] .fast [1, 2, 3]) :=
  ⟨rfl, buildIdFast_deterministic List.reverse [9] [7] [1, 2, 3] [1, 2, 3] rfl⟩

/-! ### C1: `validate_empty` -/

/-- The cursors `validate_empty` actually checks: both `.rela.dyn` halves,
both symbol-table writers (entries and strings), the GNU version tables,
`.eh_frame` and `.eh_frame_hdr`. -/
def TableWriter.checkedCursorsEmpty (tw : TableWriter) : Prop :=
  tw.relaDynRelative = 0 ∧ tw.relaDynGeneral = 0 ∧
    tw.dynsymWriter.localEntries = 0 ∧ tw.dynsymWriter.globalEntries = 0 ∧
    tw.dynsymWriter.strtabOut = 0 ∧
    tw.debugSymbolWriter.localEntries = 0 ∧ tw.debugSymbolWriter.globalEntries = 0 ∧
    tw.debugSymbolWriter.strtabOut = 0 ∧
    tw.versionWriter.versym.getD 0 = 0 ∧ tw.versionWriter.versionR = 0 ∧
    tw.versionWriter.versionD = 0 ∧
    tw.ehFrame = 0 ∧ tw.ehFrameHdr = 0

/-- A table-writer state at the end of a group's write in which every cursor
checked by `validate_empty` is exhausted, but the `.got`, `.plt.got`,
`.rela.plt` and `.dynamic` cursors all still have leftover entries. -/
def twLeftoverGot : TableWriter where
  outputKind := .dynamicExecutable true
  tlsStart := 0
  tlsEnd := 0
  gotRemaining := 3
  gotEntries := []
  pltGotRemaining := 32
  relaPlt := 2
  relaDynRelative := 0
  relaDynGeneral := 0
  emitted := []
  pltEntries := []
  dynsymWriter := ⟨0, 0, 0, true⟩
  debugSymbolWriter := ⟨0, 0, 0, false⟩
  versionWriter := ⟨Option.none, 0, 0⟩
  ehFrame := 0
  ehFrameHdr := 0
  dynamicRemaining := 4

def msZero : MemSizes := ⟨0, 0, 0, 0, 0, 0, 0⟩

/-- C1, counterexample: a group state with leftover `.got` entries (and
leftover `.plt.got` bytes, `.rela.plt` entries and `.dynamic` entries) for
which `validate_empty` nevertheless returns `Ok` — refuting the claimed
"error iff some cursor of the table-cursor set is non-empty". -/
theorem validateEmpty_misses_got_cursor :
    twLeftoverGot.validateEmpty msZero = .ok () ∧
      twLeftoverGot.gotRemaining ≠ 0 ∧ twLeftoverGot.pltGotRemaining ≠ 0 ∧
      twLeftoverGot.relaPlt ≠ 0 ∧ twLeftoverGot.dynamicRemaining ≠ 0 := by
  refine ⟨rfl, ?_, ?_, ?_, ?_⟩ <;> simp [twLeftoverGot]

/-- C1, amended: `validate_empty` returns an error iff one of the cursors it
checks is non-empty — the two `.rela.dyn` halves, `.dynsym`/`.dynstr`,
`.symtab`/`.strtab`, the GNU version tables, `.eh_frame` and
`.eh_frame_hdr`; each failure carries a diagnostic naming the section and
the leftover amounts.  The `.got`, `.plt.got`, `.rela.plt` and `.dynamic`
cursors do not participate (the right-hand side does not mention them). -/
theorem validateEmpty_ok_iff (tw : TableWriter) (ms : MemSizes) :
    tw.validateEmpty ms = .ok () ↔ tw.checkedCursorsEmpty := by
  unfold TableWriter.validateEmpty TableWriter.checkedCursorsEmpty
  unfold SymbolTableWriter.checkExhausted VersionWriter.checkExhausted
  simp only [Bind.bind, Except.bind, pure, Except.pure, bne_iff_ne, ne_eq]
  cases h : tw.versionWriter.versym <;>
    (constructor
     · intro h'
       repeat' split at h' <;> ((try simp_all); (try (split_ifs at * <;> simp_all)))
     · intro h'
       simp_all)

/-! ### C2: `process_got_tls_mod` -/

/-- An executable-output table writer about to process a GD (module/offset)
TLS resolution. -/
def twTlsMod : TableWriter where
  outputKind := .dynamicExecutable false
  tlsStart := 4096
  tlsEnd := 8192
  gotRemaining := 2
  gotEntries := []
  pltGotRemaining := 0
  relaPlt := 0
  relaDynRelative := 0
  relaDynGeneral := 2
  emitted := []
  pltEntries := []
  dynsymWriter := ⟨0, 0, 0, true⟩
  debugSymbolWriter := ⟨0, 0, 0, false⟩
  versionWriter := ⟨Option.none, 0, 0⟩
  ehFrame := 0
  ehFrameHdr := 0
  dynamicRemaining := 0

/-- A TLS symbol at address 4104 that has a dynamic symbol index (an
exported, interposable definition) and no `CAN_BYPASS_GOT`. -/
def resTlsMod : Resolution where
  rawValue := 4104
  dynamicSymbolIndex := some 1
  gotAddress := some 16384
  pltAddress := Option.none
  valueFlags := ⟨false, true, false, false, false⟩
  resolutionFlags := ⟨true, false, true, false, true, false, false⟩

/-- C2, counterexample: for an executable output whose TLS symbol has a
dynamic symbol index, `process_got_tls_mod` does NOT write the TLS offset
`address - tls_start` (= 8) into the second GOT entry as claimed: it leaves
the entry zero and emits a DTPOFF dynamic relocation even though the output
is an executable. -/
theorem processGotTlsMod_exe_dynsym_counterexample :
    twTlsMod.processGotTlsMod resTlsMod 16384 =
      .ok { twTlsMod with
        gotRemaining := 0,
        gotEntries := [CURRENT_EXE_TLS_MOD, 0],
        relaDynGeneral := 1,
        emitted := [.relaDynGeneral (16384 + TLS_OFFSET_OFFSET) 1 .dtpOff 0] } ∧
      wsub64 4104 4096 = 8 ∧ (0 : Nat) ≠ 8 := by
  refine ⟨by rfl, by norm_num [wsub64, M64], by norm_num⟩

/-- C2, amended: `process_got_tls_mod` consumes exactly two GOT entries.
First entry: executables get the current-exe module id; otherwise the entry
stays zero and a DTPMOD dynamic relocation (with the dynamic symbol index,
or 0 when there is none) is emitted.  Second entry: when the symbol has a
dynamic symbol index the entry stays zero and — regardless of output kind —
a DTPOFF dynamic relocation at `got_address + TLS_OFFSET_OFFSET` is emitted
exactly when the symbol lacks `CAN_BYPASS_GOT`; only when the symbol has no
dynamic symbol index is the TLS offset `address - tls_start` stored in the
second entry. -/
theorem processGotTlsMod_spec (tw : TableWriter) (res : Resolution) (g : Nat)
    (hGot : 2 ≤ tw.gotRemaining) (hRela : 2 ≤ tw.relaDynGeneral)
    (hAddr : res.dynamicSymbolIndex = Option.none → res.valueFlags.address = true) :
    tw.processGotTlsMod res g = .ok { tw with
      gotRemaining := tw.gotRemaining - 2,
      gotEntries := tw.gotEntries ++
        [if tw.outputKind.isExecutable then CURRENT_EXE_TLS_MOD else 0,
         if res.dynamicSymbolIndex.isSome then 0 else wsub64 res.rawValue tw.tlsStart],
      relaDynGeneral := tw.relaDynGeneral -
        ((if tw.outputKind.isExecutable then 0 else 1) +
          (if res.dynamicSymbolIndex.isSome && !res.valueFlags.canBypassGot then 1 else 0)),
      emitted := tw.emitted ++
        (if tw.outputKind.isExecutable then [] else
          [.relaDynGeneral g (res.dynamicSymbolIndex.getD 0) .dtpMod 0]) ++
        (match res.dynamicSymbolIndex with
          | some idx =>
            if !res.valueFlags.canBypassGot then
              [.relaDynGeneral (g + TLS_OFFSET_OFFSET) idx .dtpOff 0]
            else []
          | Option.none => []) } := by
  have h1 : ¬tw.gotRemaining = 0 := by omega
  have h2 : ¬tw.gotRemaining - 1 = 0 := by omega
  have h3 : ¬tw.relaDynGeneral = 0 := by omega
  have h4 : ¬tw.relaDynGeneral - 1 = 0 := by omega
  unfold TableWriter.processGotTlsMod TableWriter.takeNextGotEntry
  unfold TableWriter.writeDtpmodRelocation TableWriter.writeDtpoffRelocation
  unfold TableWriter.writeRelaDynGeneral
  cases hIdx : res.dynamicSymbolIndex with
  | none =>
    have hA := hAddr hIdx
    cases hExe : tw.outputKind.isExecutable <;>
      simp_all [Bind.bind, Except.bind, pure, Except.pure, Resolution.address,
        TableWriter.setLastGot, TableWriter.mk.injEq] <;> omega
  | some idx =>
    cases hExe : tw.outputKind.isExecutable <;>
      cases hByp : res.valueFlags.canBypassGot <;>
      simp_all [Bind.bind, Except.bind, pure, Except.pure, TableWriter.setLastGot,
        TableWriter.mk.injEq] <;> omega

theorem processGotTlsMod_spec_witness :
    2 ≤ twTlsMod.gotRemaining ∧ 2 ≤ twTlsMod.relaDynGeneral ∧
      twTlsMod.processGotTlsMod resTlsMod 16384 = .ok { twTlsMod with
        gotRemaining := twTlsMod.gotRemaining - 2,
        gotEntries := twTlsMod.gotEntries ++
          [if twTlsMod.outputKind.isExecutable then CURRENT_EXE_TLS_MOD else 0,
           if resTlsMod.dynamicSymbolIndex.isSome then 0
             else wsub64 resTlsMod.rawValue twTlsMod.tlsStart],
        relaDynGeneral := twTlsMod.relaDynGeneral -
          ((if twTlsMod.outputKind.isExecutable then 0 else 1) +
            (if resTlsMod.dynamicSymbolIndex.isSome && !resTlsMod.valueFlags.canBypassGot
              then 1 else 0)),
        emitted := twTlsMod.emitted ++
          (if twTlsMod.outputKind.isExecutable then [] else
            [.relaDynGeneral 16384 (resTlsMod.dynamicSymbolIndex.getD 0) .dtpMod 0]) ++
          (match resTlsMod.dynamicSymbolIndex with
            | some idx =>
              if !resTlsMod.valueFlags.canBypassGot then
                [.relaDynGeneral (16384 + TLS_OFFSET_OFFSET) idx .dtpOff 0]
              else []
            | Option.none => []) } :=
  ⟨by norm_num [twTlsMod], by norm_num [twTlsMod],
    processGotTlsMod_spec twTlsMod resTlsMod 16384 (by norm_num [twTlsMod])
      (by norm_num [twTlsMod]) (by simp [resTlsMod])⟩

/-! ### C4: `process_got_tls_offset` -/

/-- C4: for a `GOT_TLS_OFFSET` resolution that is neither `DYNAMIC` nor a
non-bypassable export, `process_got_tls_offset` consumes one GOT entry and:
leaves it zero when the raw value is 0; errors when the address lies outside
the closed interval `[tls_start, tls_end]` (equality at `tls_end` accepted);
for executables stores `raw_value - tls_end` (wrapping, i.e. the negative
offset from the TCB); for non-executables emits a TPOFF dynamic relocation
with addend `raw_value - tls_start`. -/
theorem processGotTlsOffset_spec (tw : TableWriter) (res : Resolution) (g : Nat)
    (hGuard : (res.valueFlags.dynamic ||
      (res.resolutionFlags.exportDynamic && !res.valueFlags.canBypassGot)) = false)
    (hCur : 1 ≤ tw.gotRemaining) :
    (res.rawValue = 0 →
      tw.processGotTlsOffset res g = .ok { tw with
        gotRemaining := tw.gotRemaining - 1, gotEntries := tw.gotEntries ++ [0] }) ∧
    (res.rawValue ≠ 0 → ¬(tw.tlsStart ≤ res.rawValue ∧ res.rawValue ≤ tw.tlsEnd) →
      tw.processGotTlsOffset res g = .error (.tlsOutOfRange res.rawValue)) ∧
    (res.rawValue ≠ 0 → tw.tlsStart ≤ res.rawValue → res.rawValue ≤ tw.tlsEnd →
      tw.outputKind.isExecutable = true →
      tw.processGotTlsOffset res g = .ok { tw with
        gotRemaining := tw.gotRemaining - 1,
        gotEntries := tw.gotEntries ++ [wsub64 res.rawValue tw.tlsEnd] }) ∧
    (res.rawValue ≠ 0 → tw.tlsStart ≤ res.rawValue → res.rawValue ≤ tw.tlsEnd →
      tw.outputKind.isExecutable = false → 1 ≤ tw.relaDynGeneral →
      tw.processGotTlsOffset res g = .ok { tw with
        gotRemaining := tw.gotRemaining - 1,
        gotEntries := tw.gotEntries ++ [0],
        relaDynGeneral := tw.relaDynGeneral - 1,
        emitted := tw.emitted ++
          [.relaDynGeneral g 0 .tpOff (toI64 (res.rawValue - tw.tlsStart))] }) := by
  have h1 : ¬tw.gotRemaining = 0 := by omega
  have hDyn : res.valueFlags.dynamic = false := by
    cases h : res.valueFlags.dynamic <;> simp_all
  have hCond : (res.resolutionFlags.exportDynamic && !res.valueFlags.canBypassGot) = false := by
    cases hE : res.resolutionFlags.exportDynamic <;>
      cases hB : res.valueFlags.canBypassGot <;> simp_all
  have hTake : tw.takeNextGotEntry = .ok { tw with
      gotRemaining := tw.gotRemaining - 1, gotEntries := tw.gotEntries ++ [0] } := by
    simp [TableWriter.takeNextGotEntry, h1]
  refine ⟨?_, ?_, ?_, ?_⟩
  · intro h0
    simp [TableWriter.processGotTlsOffset, hTake, Bind.bind, Except.bind, hDyn, hCond, h0,
      TableWriter.setLastGot, pure, Except.pure]
  · intro h0 hRange
    simp [TableWriter.processGotTlsOffset, hTake, Bind.bind, Except.bind, hDyn, hCond, h0,
      hRange, pure, Except.pure, throw, throwThe, MonadExceptOf.throw]
  · intro h0 hLo hHi hExe
    have hR : tw.tlsStart ≤ res.rawValue ∧ res.rawValue ≤ tw.tlsEnd := ⟨hLo, hHi⟩
    simp [TableWriter.processGotTlsOffset, hTake, Bind.bind, Except.bind, hDyn, hCond, h0,
      hR, hExe, TableWriter.setLastGot, pure, Except.pure]
  · intro h0 hLo hHi hExe hRela
    have h2 : ¬tw.relaDynGeneral = 0 := by omega
    have hR : tw.tlsStart ≤ res.rawValue ∧ res.rawValue ≤ tw.tlsEnd := ⟨hLo, hHi⟩
    simp [TableWriter.processGotTlsOffset, hTake, Bind.bind, Except.bind, hDyn, hCond, h0,
      hR, hExe, h2, TableWriter.writeTpoffRelocation, TableWriter.writeRelaDynGeneral,
      pure, Except.pure]

/-- A non-dynamic, non-exported TLS resolution at address 4104 inside the
TLS segment `[4096, 8192]` of an executable. -/
def resTlsOff : Resolution where
  rawValue := 4104
  dynamicSymbolIndex := Option.none
  gotAddress := some 16384
  pltAddress := Option.none
  valueFlags := ⟨false, true, false, false, true⟩
  resolutionFlags := ⟨true, false, false, true, false, false, false⟩

theorem processGotTlsOffset_spec_witness :
    (resTlsOff.valueFlags.dynamic ||
        (resTlsOff.resolutionFlags.exportDynamic && !resTlsOff.valueFlags.canBypassGot)) = false ∧
      1 ≤ twTlsMod.gotRemaining ∧
      ((resTlsOff.rawValue = 0 →
        twTlsMod.processGotTlsOffset resTlsOff 16384 = .ok { twTlsMod with
          gotRemaining := twTlsMod.gotRemaining - 1,
          gotEntries := twTlsMod.gotEntries ++ [0] }) ∧
      (resTlsOff.rawValue ≠ 0 →
          ¬(twTlsMod.tlsStart ≤ resTlsOff.rawValue ∧ resTlsOff.rawValue ≤ twTlsMod.tlsEnd) →
        twTlsMod.processGotTlsOffset resTlsOff 16384 = .error (.tlsOutOfRange resTlsOff.rawValue)) ∧
      (resTlsOff.rawValue ≠ 0 → twTlsMod.tlsStart ≤ resTlsOff.rawValue →
          resTlsOff.rawValue ≤ twTlsMod.tlsEnd → twTlsMod.outputKind.isExecutable = true →
        twTlsMod.processGotTlsOffset resTlsOff 16384 = .ok { twTlsMod with
          gotRemaining := twTlsMod.gotRemaining - 1,
          gotEntries := twTlsMod.gotEntries ++ [wsub64 resTlsOff.rawValue twTlsMod.tlsEnd] }) ∧
      (resTlsOff.rawValue ≠ 0 → twTlsMod.tlsStart ≤ resTlsOff.rawValue →
          resTlsOff.rawValue ≤ twTlsMod.tlsEnd → twTlsMod.outputKind.isExecutable = false →
          1 ≤ twTlsMod.relaDynGeneral →
        twTlsMod.processGotTlsOffset resTlsOff 16384 = .ok { twTlsMod with
          gotRemaining := twTlsMod.gotRemaining - 1,
          gotEntries := twTlsMod.gotEntries ++ [0],
          relaDynGeneral := twTlsMod.relaDynGeneral - 1,
          emitted := twTlsMod.emitted ++
            [.relaDynGeneral 16384 0 .tpOff
              (toI64 (resTlsOff.rawValue - twTlsMod.tlsStart))] })) :=
  ⟨by decide, by decide,
    processGotTlsOffset_spec twTlsMod resTlsOff 16384 (by decide) (by decide)⟩

/-! ### C3: the non-TLS GOT path of `process_resolution` -/

/-- The guard of the general-dynamic branch, exactly as parenthesised in the
source (`&&` binds tighter than `||`): the symbol is `DYNAMIC`, or
(`EXPORT_DYNAMIC` and not `CAN_BYPASS_GOT`) and not `IFUNC`. -/
def globDatCondition (res : Resolution) : Bool :=
  res.valueFlags.dynamic ||
    (res.resolutionFlags.exportDynamic && !res.valueFlags.canBypassGot)
      && !res.valueFlags.ifunc

theorem writePltEntry_preserves {tw tw' : TableWriter} {g p : Nat}
    (h : tw.writePltEntry g p = .ok tw') :
    tw'.emitted = tw.emitted ∧ tw'.gotEntries = tw.gotEntries := by
  unfold TableWriter.writePltEntry at h
  split at h
  · cases h
  · cases h
    exact ⟨rfl, rfl⟩

/-- C3: in the non-TLS GOT path of `process_resolution`, when processing
succeeds a general dynamic (GLOB_DAT-equivalent) relocation referencing the
symbol's dynamic symbol index is emitted iff `globDatCondition` holds; when
it fails and the symbol is `IFUNC` an IRELATIVE `.rela.plt` relocation with
addend = raw value is emitted instead; otherwise the raw value is written
into the consumed GOT entry. -/
theorem processResolution_globDat_iff (tw tw' : TableWriter) (res : Resolution) (g : Nat)
    (hGot : res.gotAddress = some g)
    (hOff : res.resolutionFlags.gotTlsOffset = false)
    (hMod : res.resolutionFlags.gotTlsModule = false)
    (hDesc : res.resolutionFlags.gotTlsDescriptor = false)
    (hOk : tw.processResolution res = .ok tw') :
    ((∃ idx, res.dynamicSymbolIndex = some idx ∧
        EmittedRel.relaDynGeneral g idx .dynamicSymbol 0 ∈
          tw'.emitted.drop tw.emitted.length) ↔
      globDatCondition res = true) ∧
    (globDatCondition res = false → res.valueFlags.ifunc = true →
      EmittedRel.relaPlt g .irelative (toI64 res.rawValue) ∈
        tw'.emitted.drop tw.emitted.length) ∧
    (globDatCondition res = false → res.valueFlags.ifunc = false →
      tw'.gotEntries = tw.gotEntries ++ [res.rawValue]) := by
  unfold TableWriter.processResolution at hOk
  rw [hGot] at hOk
  simp only [hOff, hMod, hDesc, Bool.or_self, Bool.or_false, Bool.false_or,
    Bool.false_eq_true, if_false, Bind.bind, TableWriter.setLastGot] at hOk
  rw [except_bind_ok'] at hOk
  obtain ⟨tw1, hTake, hOk⟩ := hOk
  unfold TableWriter.takeNextGotEntry at hTake
  by_cases hg : tw.gotRemaining == 0
  · rw [if_pos hg] at hTake
    cases hTake
  · rw [if_neg hg] at hTake
    cases hTake
    cases hC : globDatCondition res with
    | true =>
      have hC' := hC
      unfold globDatCondition at hC'
      rw [if_pos hC'] at hOk
      rw [except_bind_ok'] at hOk
      obtain ⟨idx, hIdx, hOk⟩ := hOk
      rw [except_bind_ok'] at hOk
      obtain ⟨tw2, hW, hPlt⟩ := hOk
      have hPltPres : tw'.emitted = tw2.emitted ∧ tw'.gotEntries = tw2.gotEntries := by
        cases hp : res.pltAddress <;> rw [hp] at hPlt
        · rw [except_pure_ok] at hPlt
          subst hPlt
          exact ⟨rfl, rfl⟩
        · exact writePltEntry_preserves hPlt
      unfold Resolution.dynamicSymbolIndexE at hIdx
      unfold TableWriter.writeDynamicSymbolRelocation at hW
      by_cases hr : tw.relaDynGeneral == 0
      · rw [if_pos hr] at hW
        cases hW
      · rw [if_neg hr] at hW
        cases hW
        cases hIdxV : res.dynamicSymbolIndex <;> rw [hIdxV] at hIdx
        · cases hIdx
        · cases hIdx
          refine ⟨⟨fun _ => rfl, fun _ => ⟨idx, rfl, ?_⟩⟩, fun hCf => by simp at hCf,
            fun hCf => by simp at hCf⟩
          simp [hPltPres.1, List.drop_left]
    | false =>
      have hC' := hC
      unfold globDatCondition at hC'
      rw [if_neg (by rw [hC']; exact Bool.false_ne_true)] at hOk
      cases hI : res.valueFlags.ifunc with
      | true =>
        rw [if_pos (by rw [hI])] at hOk
        rw [except_bind_ok'] at hOk
        obtain ⟨tw2, hW, hPlt⟩ := hOk
        have hPltPres : tw'.emitted = tw2.emitted ∧ tw'.gotEntries = tw2.gotEntries := by
          cases hp : res.pltAddress <;> rw [hp] at hPlt
          · rw [except_pure_ok] at hPlt
            subst hPlt
            exact ⟨rfl, rfl⟩
          · exact writePltEntry_preserves hPlt
        unfold TableWriter.writeIfuncRelocation at hW
        simp only [Bind.bind] at hW
        by_cases hrp : tw.relaPlt == 0
        · rw [if_pos hrp] at hW
          simp [throw, throwThe, MonadExceptOf.throw, Except.bind] at hW
        · rw [if_neg hrp] at hW
          rw [except_bind_ok'] at hW
          obtain ⟨u, _, hW⟩ := hW
          rw [hGot] at hW
          rw [except_pure_ok] at hW
          subst hW
          refine ⟨⟨?_, fun hCt => by simp at hCt⟩, fun _ _ => ?_, fun _ hIf => by simp [hI] at hIf⟩
          · rintro ⟨idx, hIdxV, hMem⟩
            rw [hPltPres.1] at hMem
            simp [List.drop_left] at hMem
          · simp [hPltPres.1, List.drop_left]
      | false =>
        rw [if_neg (by rw [hI]; exact Bool.false_ne_true)] at hOk
        have hMain : ∃ tw2 : TableWriter,
            tw'.emitted = tw2.emitted ∧ tw'.gotEntries = tw2.gotEntries ∧
            tw2.gotEntries = tw.gotEntries ++ [res.rawValue] ∧
            (∀ e ∈ tw2.emitted.drop tw.emitted.length,
              ∀ p i k a, e ≠ EmittedRel.relaDynGeneral p i k a) := by
          by_cases hAR : (res.valueFlags.address && tw.outputKind.isRelocatable) = true
          · rw [if_pos hAR] at hOk
            unfold TableWriter.writeAddressRelocation at hOk
            by_cases hrr : tw.relaDynRelative == 0
            · rw [if_pos hrr] at hOk
              simp [Except.bind] at hOk
            · rw [if_neg hrr] at hOk
              rw [except_bind_ok'] at hOk
              obtain ⟨tw2, hW, hPlt⟩ := hOk
              have hPltPres : tw'.emitted = tw2.emitted ∧ tw'.gotEntries = tw2.gotEntries := by
                cases hp : res.pltAddress <;> rw [hp] at hPlt
                · rw [except_pure_ok] at hPlt
                  subst hPlt
                  exact ⟨rfl, rfl⟩
                · exact writePltEntry_preserves hPlt
              cases hW
              refine ⟨_, hPltPres.1, hPltPres.2, by simp, ?_⟩
              simp [List.drop_left]
          · rw [if_neg hAR] at hOk
            rw [except_bind_ok'] at hOk
            obtain ⟨tw2, hW, hPlt⟩ := hOk
            have hPltPres : tw'.emitted = tw2.emitted ∧ tw'.gotEntries = tw2.gotEntries := by
              cases hp : res.pltAddress <;> rw [hp] at hPlt
              · rw [except_pure_ok] at hPlt
                subst hPlt
                exact ⟨rfl, rfl⟩
              · exact writePltEntry_preserves hPlt
            rw [except_pure_ok] at hW
            subst hW
            refine ⟨_, hPltPres.1, hPltPres.2, by simp, ?_⟩
            simp [List.drop_left]
        obtain ⟨tw2, hE, hG, hGE, hNone⟩ := hMain
        refine ⟨⟨?_, fun hCt => by simp at hCt⟩, fun _ hIf => by simp [hI] at hIf,
          fun _ _ => ?_⟩
        · rintro ⟨idx, hIdxV, hMem⟩
          rw [hE] at hMem
          exact absurd rfl (hNone _ hMem g idx .dynamicSymbol 0)
        · rw [hG]
          exact hGE

/-- A `DYNAMIC` symbol with a GOT entry and a dynamic symbol index, no TLS
flags, no PLT. -/
def resGlob : Resolution where
  rawValue := 77
  dynamicSymbolIndex := some 3
  gotAddress := some 16384
  pltAddress := Option.none
  valueFlags := ⟨false, false, true, false, false⟩
  resolutionFlags := ⟨true, false, false, false, false, false, false⟩

/-- The table-writer state after processing `resGlob` from `twTlsMod`. -/
def twGlobRes : TableWriter :=
  { twTlsMod with
    gotRemaining := 1
    gotEntries := [0]
    relaDynGeneral := 1
    emitted := [.relaDynGeneral 16384 3 .dynamicSymbol 0] }

theorem processResolution_globDat_iff_witness :
    resGlob.gotAddress = some 16384 ∧ resGlob.resolutionFlags.gotTlsOffset = false ∧
      resGlob.resolutionFlags.gotTlsModule = false ∧
      resGlob.resolutionFlags.gotTlsDescriptor = false ∧
      twTlsMod.processResolution resGlob = .ok twGlobRes ∧
      (((∃ idx, resGlob.dynamicSymbolIndex = some idx ∧
          EmittedRel.relaDynGeneral 16384 idx .dynamicSymbol 0 ∈
            twGlobRes.emitted.drop twTlsMod.emitted.length) ↔
        globDatCondition resGlob = true) ∧
      (globDatCondition resGlob = false → resGlob.valueFlags.ifunc = true →
        EmittedRel.relaPlt 16384 .irelative (toI64 resGlob.rawValue) ∈
          twGlobRes.emitted.drop twTlsMod.emitted.length) ∧
      (globDatCondition resGlob = false → resGlob.valueFlags.ifunc = false →
        twGlobRes.gotEntries = twTlsMod.gotEntries ++ [resGlob.rawValue])) :=
  ⟨rfl, rfl, rfl, rfl, by rfl,
    processResolution_globDat_iff twTlsMod twGlobRes resGlob 16384 rfl rfl rfl rfl (by rfl)⟩

/-! ### C5: `write_absolute_relocation` -/

/-- C5: the value written for an `Absolute` relocation follows the ordered
case split of `write_absolute_relocation`: target `DYNAMIC` and section
writable → emit a general dynamic relocation (place, addend, dynamic symbol
index) and write 0; else relocatable output and non-absolute resolution →
emit a RELATIVE relocation carrying the computed address and write 0; else
`IFUNC` → write PLT address + addend; else write the computed
value-with-addend (`vwa`, which the source computes with merged-string
resolution when applicable). -/
theorem writeAbsoluteRelocation_spec (tw : TableWriter) (res : Resolution) (place : Nat)
    (addend : Int) (info : SectionInfo) (v : Nat) :
    ((res.valueFlags.dynamic && info.isWritable) = true →
      ∀ idx, res.dynamicSymbolIndex = some idx → 1 ≤ tw.relaDynGeneral →
      writeAbsoluteRelocation tw res place addend info (.ok v) =
        .ok ({ tw with
          relaDynGeneral := tw.relaDynGeneral - 1,
          emitted := tw.emitted ++ [.relaDynGeneral place idx .dynamicSymbol addend] }, 0)) ∧
    ((res.valueFlags.dynamic && info.isWritable) = false →
      (tw.outputKind.isRelocatable && !res.isAbsolute) = true → 1 ≤ tw.relaDynRelative →
      writeAbsoluteRelocation tw res place addend info (.ok v) =
        .ok ({ tw with
          relaDynRelative := tw.relaDynRelative - 1,
          emitted := tw.emitted ++ [.relaDynRelative place (toI64 v)] }, 0)) ∧
    ((res.valueFlags.dynamic && info.isWritable) = false →
      (tw.outputKind.isRelocatable && !res.isAbsolute) = false →
      res.valueFlags.ifunc = true → ∀ plt, res.pltAddress = some plt →
      writeAbsoluteRelocation tw res place addend info (.ok v) =
        .ok (tw, waddI64 plt addend)) ∧
    ((res.valueFlags.dynamic && info.isWritable) = false →
      (tw.outputKind.isRelocatable && !res.isAbsolute) = false →
      res.valueFlags.ifunc = false →
      writeAbsoluteRelocation tw res place addend info (.ok v) = .ok (tw, v)) := by
  refine ⟨?_, ?_, ?_, ?_⟩
  · intro hC idx hIdx hRela
    have h1 : ¬tw.relaDynGeneral = 0 := by omega
    simp [writeAbsoluteRelocation, hC, hIdx, h1, Resolution.dynamicSymbolIndexE,
      TableWriter.writeDynamicSymbolRelocation, Bind.bind, Except.bind, pure, Except.pure]
  · intro hC1 hC2 hRela
    have h1 : ¬tw.relaDynRelative = 0 := by omega
    simp [writeAbsoluteRelocation, hC1, hC2, h1, TableWriter.writeAddressRelocation,
      Bind.bind, Except.bind, pure, Except.pure]
  · intro hC1 hC2 hI plt hPlt
    simp [writeAbsoluteRelocation, hC1, hC2, hI, hPlt, Resolution.pltAddressE,
      Bind.bind, Except.bind, pure, Except.pure]
  · intro hC1 hC2 hI
    simp [writeAbsoluteRelocation, hC1, hC2, hI, Bind.bind, Except.bind, pure, Except.pure]

/-- A non-dynamic address resolution in a relocatable (PIE) output. -/
def resAbs : Resolution where
  rawValue := 500
  dynamicSymbolIndex := Option.none
  gotAddress := Option.none
  pltAddress := Option.none
  valueFlags := ⟨false, true, false, false, true⟩
  resolutionFlags := ⟨false, false, false, false, false, false, false⟩

def twAbs : TableWriter :=
  { twTlsMod with outputKind := .dynamicExecutable true, relaDynRelative := 1 }

theorem writeAbsoluteRelocation_spec_witness :
    ((resAbs.valueFlags.dynamic && (SectionInfo.mk 0 false).isWritable) = true →
      ∀ idx, resAbs.dynamicSymbolIndex = some idx → 1 ≤ twAbs.relaDynGeneral →
      writeAbsoluteRelocation twAbs resAbs 1234 7 (SectionInfo.mk 0 false) (.ok 500) =
        .ok ({ twAbs with
          relaDynGeneral := twAbs.relaDynGeneral - 1,
          emitted := twAbs.emitted ++ [.relaDynGeneral 1234 idx .dynamicSymbol 7] }, 0)) ∧
    ((resAbs.valueFlags.dynamic && (SectionInfo.mk 0 false).isWritable) = false →
      (twAbs.outputKind.isRelocatable && !resAbs.isAbsolute) = true →
        1 ≤ twAbs.relaDynRelative →
      writeAbsoluteRelocation twAbs resAbs 1234 7 (SectionInfo.mk 0 false) (.ok 500) =
        .ok ({ twAbs with
          relaDynRelative := twAbs.relaDynRelative - 1,
          emitted := twAbs.emitted ++ [.relaDynRelative 1234 (toI64 500)] }, 0)) ∧
    ((resAbs.valueFlags.dynamic && (SectionInfo.mk 0 false).isWritable) = false →
      (twAbs.outputKind.isRelocatable && !resAbs.isAbsolute) = false →
      resAbs.valueFlags.ifunc = true → ∀ plt, resAbs.pltAddress = some plt →
      writeAbsoluteRelocation twAbs resAbs 1234 7 (SectionInfo.mk 0 false) (.ok 500) =
        .ok (twAbs, waddI64 plt 7)) ∧
    ((resAbs.valueFlags.dynamic && (SectionInfo.mk 0 false).isWritable) = false →
      (twAbs.outputKind.isRelocatable && !resAbs.isAbsolute) = false →
      resAbs.valueFlags.ifunc = false →
      writeAbsoluteRelocation twAbs resAbs 1234 7 (SectionInfo.mk 0 false) (.ok 500) =
        .ok (twAbs, 500)) :=
  writeAbsoluteRelocation_spec twAbs resAbs 1234 7 (SectionInfo.mk 0 false) 500

/-! ### C10: TLS dispatch order in `process_resolution` -/

theorem takeNextGotEntry_ok {tw tw' : TableWriter} (h : tw.takeNextGotEntry = .ok tw') :
    tw' = { tw with
      gotRemaining := tw.gotRemaining - 1,
      gotEntries := tw.gotEntries ++ [0] } := by
  unfold TableWriter.takeNextGotEntry at h
  split at h
  · cases h
  · cases h
    rfl

theorem writeRelaDynGeneral_ok {tw tw' : TableWriter} {p i : Nat} {k : DynRelKind} {a : Int}
    (h : tw.writeRelaDynGeneral p i k a = .ok tw') :
    tw' = { tw with
      relaDynGeneral := tw.relaDynGeneral - 1,
      emitted := tw.emitted ++ [.relaDynGeneral p i k a] } := by
  unfold TableWriter.writeRelaDynGeneral at h
  split at h
  · cases h
  · cases h
    rfl

theorem processGotTlsOffset_counts {tw tw' : TableWriter} {res : Resolution} {g : Nat}
    (h : tw.processGotTlsOffset res g = .ok tw') :
    tw'.gotEntries.length = tw.gotEntries.length + 1 ∧ tw'.pltEntries = tw.pltEntries ∧
      tw'.relaPlt = tw.relaPlt := by
  unfold TableWriter.processGotTlsOffset at h
  simp only [Bind.bind] at h
  rw [except_bind_ok'] at h
  obtain ⟨t1, ht1, h⟩ := h
  have e1 := takeNextGotEntry_ok ht1
  subst e1
  split at h
  · rw [except_bind_ok'] at h
    obtain ⟨idx, _, hW⟩ := h
    unfold TableWriter.writeTpoffRelocation at hW
    have e2 := writeRelaDynGeneral_ok hW
    subst e2
    simp
  · split at h
    · rw [except_pure_ok] at h
      subst h
      simp [TableWriter.setLastGot]
    · split at h
      · split at h
        · rw [except_pure_ok] at h
          subst h
          simp [TableWriter.setLastGot]
        · unfold TableWriter.writeTpoffRelocation at h
          have e2 := writeRelaDynGeneral_ok h
          subst e2
          simp [TableWriter.setLastGot]
      · simp [throw, throwThe, MonadExceptOf.throw] at h

theorem processGotTlsMod_counts {tw tw' : TableWriter} {res : Resolution} {g : Nat}
    (h : tw.processGotTlsMod res g = .ok tw') :
    tw'.gotEntries.length = tw.gotEntries.length + 2 ∧ tw'.pltEntries = tw.pltEntries ∧
      tw'.relaPlt = tw.relaPlt := by
  unfold TableWriter.processGotTlsMod at h
  simp only [Bind.bind] at h
  rw [except_bind_ok'] at h
  obtain ⟨t1, ht1, h⟩ := h
  have e1 := takeNextGotEntry_ok ht1
  subst e1
  have hTail : ∀ t2 : TableWriter,
      t2.gotEntries.length = tw.gotEntries.length + 1 →
      t2.pltEntries = tw.pltEntries → t2.relaPlt = tw.relaPlt →
      (t2.takeNextGotEntry.bind fun t3 =>
        match res.dynamicSymbolIndex with
        | some dynamicSymbolIndex =>
          if (!res.valueFlags.canBypassGot) = true then
            t3.writeDtpoffRelocation (g + TLS_OFFSET_OFFSET) dynamicSymbolIndex
          else
            pure t3
        | Option.none =>
          res.address.bind fun address =>
            pure (t3.setLastGot (wsub64 address t3.tlsStart))) = .ok tw' →
      tw'.gotEntries.length = tw.gotEntries.length + 2 ∧ tw'.pltEntries = tw.pltEntries ∧
        tw'.relaPlt = tw.relaPlt := by
    intro t2 hLen hPlt hRp h
    rw [except_bind_ok'] at h
    obtain ⟨t3, ht3, h⟩ := h
    have e3 := takeNextGotEntry_ok ht3
    subst e3
    cases hIdx : res.dynamicSymbolIndex <;> simp only [hIdx] at h
    · rw [except_bind_ok'] at h
      obtain ⟨a, _, h⟩ := h
      rw [except_pure_ok] at h
      subst h
      simp [TableWriter.setLastGot, hPlt, hRp]
      omega
    · split at h
      · unfold TableWriter.writeDtpoffRelocation at h
        have e4 := writeRelaDynGeneral_ok h
        subst e4
        simp [hPlt, hRp]
        omega
      · rw [except_pure_ok] at h
        subst h
        simp [hPlt, hRp]
        omega
  split at h
  · rw [except_bind_ok'] at h
    obtain ⟨t2, hp, h⟩ := h
    rw [except_pure_ok] at hp
    subst hp
    exact hTail _ (by simp [TableWriter.setLastGot]) (by simp [TableWriter.setLastGot])
      (by simp [TableWriter.setLastGot]) h
  · rw [except_bind_ok'] at h
    obtain ⟨t2, hw, h⟩ := h
    unfold TableWriter.writeDtpmodRelocation at hw
    have e2 := writeRelaDynGeneral_ok hw
    subst e2
    exact hTail _ (by simp) (by simp) (by simp) h

theorem processGotTlsDescriptor_counts {tw tw' : TableWriter} {res : Resolution} {g : Nat}
    (h : tw.processGotTlsDescriptor res g = .ok tw') :
    tw'.gotEntries.length = tw.gotEntries.length + 2 ∧ tw'.pltEntries = tw.pltEntries ∧
      tw'.relaPlt = tw.relaPlt := by
  unfold TableWriter.processGotTlsDescriptor at h
  simp only [Bind.bind] at h
  rw [except_bind_ok'] at h
  obtain ⟨t1, ht1, h⟩ := h
  have e1 := takeNextGotEntry_ok ht1
  subst e1
  rw [except_bind_ok'] at h
  obtain ⟨t2, ht2, h⟩ := h
  have e2 := takeNextGotEntry_ok ht2
  subst e2
  split at h
  · simp [throw, throwThe, MonadExceptOf.throw, Except.bind] at h
  · rw [except_bind_ok'] at h
    obtain ⟨u, _, h⟩ := h
    unfold TableWriter.writeTlsDescriptorRelocation at h
    have e3 := writeRelaDynGeneral_ok h
    subst e3
    simp

/-- C10: when any of the `GOT_TLS_*` flags is set, `process_resolution`
processes the set variants in the fixed order offset → module → descriptor
(the pipeline equality below, which also advances the working GOT address by
`GOT_ENTRY_SIZE` after the offset variant and `2 * GOT_ENTRY_SIZE` after the
module variant), consumes 1, 2 and 2 GOT cursor entries respectively, and
returns without any of the normal non-TLS processing — no PLT stub is
synthesized and no `.rela.plt` entry is consumed. -/
theorem processResolution_tls_order (tw tw' : TableWriter) (res : Resolution) (g : Nat)
    (hGot : res.gotAddress = some g)
    (hTls : (res.resolutionFlags.gotTlsOffset || res.resolutionFlags.gotTlsModule ||
      res.resolutionFlags.gotTlsDescriptor) = true)
    (hOk : tw.processResolution res = .ok tw') :
    (tw.processResolution res =
      (do
        let st ←
          if res.resolutionFlags.gotTlsOffset then do
            let tw1 ← tw.processGotTlsOffset res g
            pure (tw1, g + GOT_ENTRY_SIZE)
          else
            pure (tw, g)
        let st ←
          if res.resolutionFlags.gotTlsModule then do
            let tw1 ← st.1.processGotTlsMod res st.2
            pure (tw1, st.2 + 2 * GOT_ENTRY_SIZE)
          else
            pure st
        if res.resolutionFlags.gotTlsDescriptor then
          st.1.processGotTlsDescriptor res st.2
        else
          pure st.1 : Except WriteError TableWriter)) ∧
    tw'.gotEntries.length = tw.gotEntries.length +
      ((if res.resolutionFlags.gotTlsOffset then 1 else 0) +
        (if res.resolutionFlags.gotTlsModule then 2 else 0) +
        (if res.resolutionFlags.gotTlsDescriptor then 2 else 0)) ∧
    tw'.pltEntries = tw.pltEntries ∧ tw'.relaPlt = tw.relaPlt := by
  have hPipe : tw.processResolution res =
      (do
        let st ←
          if res.resolutionFlags.gotTlsOffset then do
            let tw1 ← tw.processGotTlsOffset res g
            pure (tw1, g + GOT_ENTRY_SIZE)
          else
            pure (tw, g)
        let st ←
          if res.resolutionFlags.gotTlsModule then do
            let tw1 ← st.1.processGotTlsMod res st.2
            pure (tw1, st.2 + 2 * GOT_ENTRY_SIZE)
          else
            pure st
        if res.resolutionFlags.gotTlsDescriptor then
          st.1.processGotTlsDescriptor res st.2
        else
          pure st.1 : Except WriteError TableWriter) := by
    unfold TableWriter.processResolution
    rw [hGot]
    cases ho : res.resolutionFlags.gotTlsOffset <;>
      cases hm : res.resolutionFlags.gotTlsModule <;>
      cases hd : res.resolutionFlags.gotTlsDescriptor <;>
      simp_all
  refine ⟨hPipe, ?_⟩
  rw [hPipe] at hOk
  by_cases ho : res.resolutionFlags.gotTlsOffset = true <;>
    by_cases hm : res.resolutionFlags.gotTlsModule = true <;>
    by_cases hd : res.resolutionFlags.gotTlsDescriptor = true <;>
    simp only [ho, hm, hd, Bool.or_self, Bool.or_false, Bool.false_or, Bool.or_true,
      Bool.true_or] at hOk hTls ⊢ <;>
    simp only [Bind.bind, if_true, if_false, eq_self_iff_true, ite_true, ite_false,
      if_pos, Bool.false_eq_true] at hOk ⊢
  · -- offset, module, descriptor
    rw [except_bind_ok'] at hOk
    obtain ⟨t1, ht1, hOk⟩ := hOk
    rw [except_bind_ok'] at hOk
    obtain ⟨y1, hy1, hOk⟩ := hOk
    rw [except_pure_ok] at hy1
    subst hy1
    rw [except_bind_ok'] at hOk
    obtain ⟨t2, ht2, hOk⟩ := hOk
    rw [except_bind_ok'] at hOk
    obtain ⟨y2, hy2, hOk⟩ := hOk
    rw [except_pure_ok] at hy2
    subst hy2
    try dsimp only at *
    obtain ⟨a1, b1, c1⟩ := processGotTlsOffset_counts ht1
    try dsimp only at *
    obtain ⟨a2, b2, c2⟩ := processGotTlsMod_counts ht2
    obtain ⟨a3, b3, c3⟩ := processGotTlsDescriptor_counts hOk
    refine ⟨by omega, ?_, ?_⟩ <;> simp_all
  · -- offset, module
    rw [except_bind_ok'] at hOk
    obtain ⟨t1, ht1, hOk⟩ := hOk
    rw [except_bind_ok'] at hOk
    obtain ⟨y1, hy1, hOk⟩ := hOk
    rw [except_pure_ok] at hy1
    subst hy1
    rw [except_bind_ok'] at hOk
    obtain ⟨t2, ht2, hOk⟩ := hOk
    rw [except_bind_ok'] at hOk
    obtain ⟨y2, hy2, hOk⟩ := hOk
    rw [except_pure_ok] at hy2
    subst hy2
    rw [except_pure_ok] at hOk
    subst hOk
    try dsimp only at *
    obtain ⟨a1, b1, c1⟩ := processGotTlsOffset_counts ht1
    obtain ⟨a2, b2, c2⟩ := processGotTlsMod_counts ht2
    refine ⟨by omega, ?_, ?_⟩ <;> simp_all
  · -- offset, descriptor
    rw [except_bind_ok'] at hOk
    obtain ⟨t1, ht1, hOk⟩ := hOk
    rw [except_bind_ok'] at hOk
    obtain ⟨y1, hy1, hOk⟩ := hOk
    rw [except_pure_ok] at hy1
    subst hy1
    rw [except_bind_ok'] at hOk
    obtain ⟨y2, hy2, hOk⟩ := hOk
    rw [except_pure_ok] at hy2
    subst hy2
    try dsimp only at *
    obtain ⟨a1, b1, c1⟩ := processGotTlsOffset_counts ht1
    obtain ⟨a3, b3, c3⟩ := processGotTlsDescriptor_counts hOk
    refine ⟨by omega, ?_, ?_⟩ <;> simp_all
  · -- offset only
    rw [except_bind_ok'] at hOk
    obtain ⟨t1, ht1, hOk⟩ := hOk
    rw [except_bind_ok'] at hOk
    obtain ⟨y1, hy1, hOk⟩ := hOk
    rw [except_pure_ok] at hy1
    subst hy1
    rw [except_bind_ok'] at hOk
    obtain ⟨y2, hy2, hOk⟩ := hOk
    rw [except_pure_ok] at hy2
    subst hy2
    rw [except_pure_ok] at hOk
    subst hOk
    try dsimp only at *
    obtain ⟨a1, b1, c1⟩ := processGotTlsOffset_counts ht1
    refine ⟨by omega, ?_, ?_⟩ <;> simp_all
  · -- module, descriptor
    rw [except_bind_ok'] at hOk
    obtain ⟨y1, hy1, hOk⟩ := hOk
    rw [except_pure_ok] at hy1
    subst hy1
    rw [except_bind_ok'] at hOk
    obtain ⟨t2, ht2, hOk⟩ := hOk
    rw [except_bind_ok'] at hOk
    obtain ⟨y2, hy2, hOk⟩ := hOk
    rw [except_pure_ok] at hy2
    subst hy2
    try dsimp only at *
    obtain ⟨a2, b2, c2⟩ := processGotTlsMod_counts ht2
    obtain ⟨a3, b3, c3⟩ := processGotTlsDescriptor_counts hOk
    refine ⟨by omega, ?_, ?_⟩ <;> simp_all
  · -- module only
    rw [except_bind_ok'] at hOk
    obtain ⟨y1, hy1, hOk⟩ := hOk
    rw [except_pure_ok] at hy1
    subst hy1
    rw [except_bind_ok'] at hOk
    obtain ⟨t2, ht2, hOk⟩ := hOk
    rw [except_bind_ok'] at hOk
    obtain ⟨y2, hy2, hOk⟩ := hOk
    rw [except_pure_ok] at hy2
    subst hy2
    rw [except_pure_ok] at hOk
    subst hOk
    try dsimp only at *
    obtain ⟨a2, b2, c2⟩ := processGotTlsMod_counts ht2
    refine ⟨by omega, ?_, ?_⟩ <;> simp_all
  · -- descriptor only
    rw [except_bind_ok'] at hOk
    obtain ⟨y1, hy1, hOk⟩ := hOk
    rw [except_pure_ok] at hy1
    subst hy1
    rw [except_bind_ok'] at hOk
    obtain ⟨y2, hy2, hOk⟩ := hOk
    rw [except_pure_ok] at hy2
    subst hy2
    try dsimp only at *
    obtain ⟨a3, b3, c3⟩ := processGotTlsDescriptor_counts hOk
    refine ⟨by omega, ?_, ?_⟩ <;> simp_all
  · -- no TLS flag: contradicts hTls
    simp at hTls

/-- Result of processing `resTlsMod` (module flag only) from `twTlsMod`. -/
def twTlsModDone : TableWriter :=
  { twTlsMod with
    gotRemaining := 0
    gotEntries := [CURRENT_EXE_TLS_MOD, 0]
    relaDynGeneral := 1
    emitted := [.relaDynGeneral (16384 + TLS_OFFSET_OFFSET) 1 .dtpOff 0] }

theorem processResolution_tls_order_witness :
    resTlsMod.gotAddress = some 16384 ∧
      (resTlsMod.resolutionFlags.gotTlsOffset || resTlsMod.resolutionFlags.gotTlsModule ||
        resTlsMod.resolutionFlags.gotTlsDescriptor) = true ∧
      twTlsMod.processResolution resTlsMod = .ok twTlsModDone ∧
      ((twTlsMod.processResolution resTlsMod =
        (do
          let st ←
            if resTlsMod.resolutionFlags.gotTlsOffset then do
              let tw1 ← twTlsMod.processGotTlsOffset resTlsMod 16384
              pure (tw1, 16384 + GOT_ENTRY_SIZE)
            else
              pure (twTlsMod, 16384)
          let st ←
            if resTlsMod.resolutionFlags.gotTlsModule then do
              let tw1 ← st.1.processGotTlsMod resTlsMod st.2
              pure (tw1, st.2 + 2 * GOT_ENTRY_SIZE)
            else
              pure st
          if resTlsMod.resolutionFlags.gotTlsDescriptor then
            st.1.processGotTlsDescriptor resTlsMod st.2
          else
            pure st.1 : Except WriteError TableWriter)) ∧
      twTlsModDone.gotEntries.length = twTlsMod.gotEntries.length +
        ((if resTlsMod.resolutionFlags.gotTlsOffset then 1 else 0) +
          (if resTlsMod.resolutionFlags.gotTlsModule then 2 else 0) +
          (if resTlsMod.resolutionFlags.gotTlsDescriptor then 2 else 0)) ∧
      twTlsModDone.pltEntries = twTlsMod.pltEntries ∧
        twTlsModDone.relaPlt = twTlsMod.relaPlt) :=
  ⟨rfl, rfl, by rfl,
    processResolution_tls_order twTlsMod twTlsModDone resTlsMod 16384 rfl rfl (by rfl)⟩

/-! ### C6: `split_output_into_sections` -/

theorem splitLoop_spec : ∀ (l : List SectionAllocation) (rem cursor : Nat),
    List.Pairwise (fun a b => a.offset + a.size ≤ b.offset) l →
    (∀ a ∈ l, cursor ≤ a.offset) →
    (∀ a ∈ l, a.offset + a.size ≤ cursor + rem) →
    splitLoop rem cursor l = some (l.map fun a => (a.id, a.offset, a.size))
  | [], rem, cursor, _, _, _ => by simp [splitLoop]
  | a :: rest, rem, cursor, hPair, hLo, hFit => by
    have hLoA : cursor ≤ a.offset := hLo a (by simp)
    have hFitA : a.offset + a.size ≤ cursor + rem := hFit a (by simp)
    obtain ⟨hRel, hPair'⟩ := List.pairwise_cons.mp hPair
    unfold splitLoop
    rw [if_neg (by omega)]
    rw [if_neg (by omega)]
    rw [if_neg (by omega)]
    have ih := splitLoop_spec rest (rem - (a.offset - cursor) - a.size) (a.offset + a.size)
      hPair'
      (fun b hb => hRel b hb)
      (fun b hb => by
        have := hFit b (by simp [hb])
        omega)
    rw [ih]
    simp

/-- C6: for a layout whose allocations, in sorted `(file_offset,
file_offset + file_size)` order, never place a later allocation's offset
before the end of the previous one, and which fits in the output buffer,
`split_output_into_sections` hands out exactly one slice per section of
exactly `file_size` bytes starting at `file_offset`; the handed-out ranges
are pairwise disjoint (each ends at or before the next begins — padding gaps
belong to no slice) and contained in `[0, buffer_len)`. -/
theorem splitOutputIntoSections_disjoint (bufferLen : Nat)
    (sectionLayouts : List SectionAllocation)
    (hChain : List.Chain' (fun a b => a.offset + a.size ≤ b.offset)
      (sectionLayouts.mergeSort SectionAllocation.le))
    (hFit : ∀ a ∈ sectionLayouts, a.offset + a.size ≤ bufferLen) :
    ∃ ranges, splitOutputIntoSections bufferLen sectionLayouts = some ranges ∧
      ranges = (sectionLayouts.mergeSort SectionAllocation.le).map
        (fun a => (a.id, a.offset, a.size)) ∧
      (∀ a ∈ sectionLayouts, (a.id, a.offset, a.size) ∈ ranges) ∧
      (∀ r ∈ ranges, r.2.1 + r.2.2 ≤ bufferLen) ∧
      List.Pairwise (fun r s : Nat × Nat × Nat => r.2.1 + r.2.2 ≤ s.2.1) ranges := by
  haveI : IsTrans SectionAllocation (fun a b => a.offset + a.size ≤ b.offset) :=
    ⟨fun a b c hab hbc => by omega⟩
  have hPair := List.chain'_iff_pairwise.mp hChain
  have hRun := splitLoop_spec (sectionLayouts.mergeSort SectionAllocation.le) bufferLen 0
    hPair
    (fun a _ => Nat.zero_le _)
    (fun a ha => by
      have := hFit a (List.mem_mergeSort.mp ha)
      omega)
  refine ⟨_, hRun, rfl, ?_, ?_, ?_⟩
  · intro a ha
    exact List.mem_map_of_mem _ (List.mem_mergeSort.mpr ha)
  · intro r hr
    obtain ⟨a, ha, rfl⟩ := List.mem_map.mp hr
    exact hFit a (List.mem_mergeSort.mp ha)
  · exact hPair.map _ (fun a b hab => hab)

/-- Three in-order allocations with a padding gap before the third. -/
def allocsC6 : List SectionAllocation := [⟨0, 0, 64⟩, ⟨1, 64, 16⟩, ⟨2, 96, 8⟩]

theorem splitOutputIntoSections_disjoint_witness :
    List.Chain' (fun a b => a.offset + a.size ≤ b.offset)
        (allocsC6.mergeSort SectionAllocation.le) ∧
      (∀ a ∈ allocsC6, a.offset + a.size ≤ 128) ∧
      ∃ ranges, splitOutputIntoSections 128 allocsC6 = some ranges ∧
        ranges = (allocsC6.mergeSort SectionAllocation.le).map
          (fun a => (a.id, a.offset, a.size)) ∧
        (∀ a ∈ allocsC6, (a.id, a.offset, a.size) ∈ ranges) ∧
        (∀ r ∈ ranges, r.2.1 + r.2.2 ≤ 128) ∧
        List.Pairwise (fun r s : Nat × Nat × Nat => r.2.1 + r.2.2 ≤ s.2.1) ranges := by
  have hsorted : allocsC6.mergeSort SectionAllocation.le = allocsC6 :=
    List.mergeSort_of_sorted (by decide)
  exact ⟨by rw [hsorted]; simp [allocsC6, List.chain'_cons], by decide,
    splitOutputIntoSections_disjoint 128 allocsC6
      (by rw [hsorted]; simp [allocsC6, List.chain'_cons]) (by decide)⟩

/-! ### C9: `write_eh_frame_data` with an empty `.eh_frame_hdr` cursor -/

theorem hdrStep_zero (framePtr frameInfoPtr : Int) :
    hdrStep 0 [] framePtr frameInfoPtr = .ok (0, []) := rfl

theorem ehKeep_eraseHdr {σ : Type}
    (applyRel : σ → EhRel → Nat → Nat → List Nat → Except WriteError (σ × List Nat))
    (data : List Nat) (sa ip size op : Nat) (oc : Option Nat) (rels : List EhRel)
    (st : EhFrameState σ) (r : List EhRel × EhFrameState σ)
    (h : ehKeep applyRel data sa ip size op oc rels st = .ok r) :
    ehKeep applyRel data sa ip size op oc rels st.eraseHdr = .ok (r.1, r.2.eraseHdr) := by
  unfold ehKeep at h ⊢
  simp only [Bind.bind, EhFrameState.eraseHdr] at h ⊢
  split at h
  · simp [throw, throwThe, MonadExceptOf.throw, Except.bind] at h
  · rw [if_neg (by assumption)]
    rw [except_bind_ok'] at h
    obtain ⟨u, _, h⟩ := h
    rw [except_bind_ok'] at h
    obtain ⟨a, hA, h⟩ := h
    rw [except_pure_ok] at h
    subst h
    rw [except_bind_ok']
    refine ⟨PUnit.unit, rfl, ?_⟩
    rw [except_bind_ok']
    refine ⟨a, hA, ?_⟩
    rw [except_pure_ok]

theorem ehLoop_eraseHdr {σ : Type}
    (applyRel : σ → EhRel → Nat → Nat → List Nat → Except WriteError (σ × List Nat))
    (env : EhObjectEnv) (data : List Nat) (sa ha : Nat) :
    ∀ (fuel ip op : Nat) (cies : List (Nat × Nat)) (rels : List EhRel)
      (st : EhFrameState σ) (r : Nat × Nat × EhFrameState σ),
    ehLoop applyRel env data sa ha fuel ip op cies rels st = .ok r →
    ehLoop applyRel env data sa ha fuel ip op cies rels st.eraseHdr =
      .ok (r.1, r.2.1, r.2.2.eraseHdr) := by
  intro fuel
  induction fuel with
  | zero =>
    intro ip op cies rels st r h
    cases h
  | succ fuel ih =>
    intro ip op cies rels st r h
    rw [ehLoop] at h ⊢
    by_cases hLen : ip + 8 ≤ data.length
    · rw [if_pos hLen] at h ⊢
      by_cases hBad : data.length < ip + (4 + readU32 data ip)
      · rw [if_pos hBad] at h
        cases h
      · rw [if_neg hBad] at h ⊢
        by_cases hCie : (readU32 data (ip + 4) == 0) = true
        · rw [if_pos hCie] at h ⊢
          simp only [Bind.bind] at h ⊢
          rw [except_bind_ok'] at h
          obtain ⟨k, hK, h⟩ := h
          rw [except_bind_ok']
          exact ⟨(k.1, k.2.eraseHdr), ehKeep_eraseHdr _ _ _ _ _ _ _ _ _ _ hK, ih _ _ _ _ _ _ h⟩
        · rw [if_neg hCie] at h ⊢
          cases rels with
          | nil => exact ih _ _ _ _ _ _ h
          | cons rel rest =>
            dsimp only at h ⊢
            by_cases hIn : rel.rOffset < ip + (4 + readU32 data ip)
            · rw [if_pos hIn] at h ⊢
              by_cases hPc : (rel.rOffset - ip == FDE_PC_BEGIN_OFFSET) = true
              · rw [if_pos hPc] at h ⊢
                cases hSym : rel.symbol with
                | none =>
                  try simp only [hSym] at h ⊢
                  try dsimp only at h
                  cases h
                | some index =>
                  try simp only [hSym] at h ⊢
                  try dsimp only at h ⊢
                  cases hSec : env.symSection index with
                  | none =>
                    try simp only [hSec] at h ⊢
                    try dsimp only at h
                    cases h
                  | some sectionIndex =>
                    try simp only [hSec] at h ⊢
                    try dsimp only at h ⊢
                    cases hAddr : env.sectionAddress sectionIndex with
                    | some sectionAddress =>
                      try simp only [hAddr] at h ⊢
                      try dsimp only at h ⊢
                      by_cases hCp : ip + 4 < readU32 data (ip + 4)
                      · rw [if_pos hCp] at h
                        cases h
                      · rw [if_neg hCp] at h ⊢
                        simp only [Bind.bind] at h ⊢
                        rw [except_bind_ok'] at h
                        obtain ⟨hv, hH, h⟩ := h
                        cases hLk : cies.lookup (ip + 4 - readU32 data (ip + 4)) with
                        | none =>
                          try simp only [hLk] at h ⊢
                          try dsimp only at h
                          cases h
                        | some outputCiePos =>
                          try simp only [hLk] at h ⊢
                          try dsimp only at h ⊢
                          simp only [EhFrameState.eraseHdr, hdrStep_zero] at h ⊢
                          rw [except_bind_ok'] at h ⊢
                          obtain ⟨k2, hK2, h⟩ := h
                          refine ⟨(0, []), rfl, ?_⟩
                          dsimp only
                          rw [except_bind_ok']
                          have hK2' := ehKeep_eraseHdr _ _ _ _ _ _ _ _ _ _ hK2
                          simp only [EhFrameState.eraseHdr] at hK2'
                          exact ⟨(k2.1, k2.2.eraseHdr), hK2', ih _ _ _ _ _ _ h⟩
                    | none =>
                      try simp only [hAddr] at h ⊢
                      try dsimp only at h ⊢
                      exact ih _ _ _ _ _ _ h
              · rw [if_neg hPc] at h ⊢
                exact ih _ _ _ _ _ _ h
            · rw [if_neg hIn] at h ⊢
              exact ih _ _ _ _ _ _ h
    · rw [if_neg hLen] at h ⊢
      cases h
      rfl

/-- C9: an empty `.eh_frame_hdr` cursor is not an error.
`take_eh_frame_hdr_entry` returns `None` when the cursor is empty, and
`write_eh_frame_data` run with an empty `.eh_frame_hdr` cursor succeeds
whenever the same run with a non-empty cursor does, producing the same
`.eh_frame` output bytes (every live FDE kept and copied with its CIE
back-pointer rewritten), consuming the same relocations through the same
`apply_relocation` state, and consuming the same amount of `.eh_frame`
allocation — only the header entries are silently skipped. -/
theorem writeEhFrameData_empty_hdr {σ : Type}
    (applyRel : σ → EhRel → Nat → Nat → List Nat → Except WriteError (σ × List Nat))
    (env : EhObjectEnv) (data : List Nat) (sa ha : Nat) (rels : List EhRel)
    (st : EhFrameState σ) (r : Nat × EhFrameState σ)
    (hOk : writeEhFrameData applyRel env data sa ha rels st = .ok r) :
    (∀ tw : TableWriter, tw.ehFrameHdr = 0 → tw.takeEhFrameHdrEntry = .ok Option.none) ∧
      writeEhFrameData applyRel env data sa ha rels st.eraseHdr =
        .ok (r.1, r.2.eraseHdr) ∧
      (r.2.eraseHdr).ehOut = r.2.ehOut ∧ (r.2.eraseHdr).relSt = r.2.relSt ∧
      (r.2.eraseHdr).ehFrameRemaining = r.2.ehFrameRemaining ∧
      (r.2.eraseHdr).hdrEntries = [] := by
  refine ⟨fun tw htw => by simp [TableWriter.takeEhFrameHdrEntry, htw], ?_, rfl, rfl, rfl, rfl⟩
  unfold writeEhFrameData at hOk ⊢
  simp only [Bind.bind] at hOk ⊢
  rw [except_bind_ok'] at hOk
  obtain ⟨l, hLoop, hOk⟩ := hOk
  rw [except_bind_ok']
  refine ⟨(l.1, l.2.1, l.2.2.eraseHdr), ehLoop_eraseHdr _ _ _ _ _ _ _ _ _ _ _ _ hLoop, ?_⟩
  simp only [EhFrameState.eraseHdr] at hOk ⊢
  split at hOk
  · split at hOk
    · simp [throw, throwThe, MonadExceptOf.throw, Except.bind] at hOk
    · rw [if_pos (by assumption)]
      rw [if_neg (by assumption)]
      simp only [Bind.bind, Except.bind, pure, Except.pure] at hOk ⊢
      cases hOk
      rfl
  · rw [if_neg (by assumption)]
    rw [except_pure_ok] at hOk
    subst hOk
    rw [except_pure_ok]

/-- A minimal `.eh_frame`: one CIE of length 4 (8 bytes total). -/
def ehDataC9 : List Nat := u32Bytes 4 ++ u32Bytes 0

def ehEnvC9 : EhObjectEnv := ⟨fun _ => 0, fun _ => Option.none, fun _ => Option.none⟩

def ehStC9 : EhFrameState PUnit := ⟨8, 16, [], [], PUnit.unit⟩

def ehApplyC9 : PUnit → EhRel → Nat → Nat → List Nat → Except WriteError (PUnit × List Nat) :=
  fun s _ _ _ b => .ok (s, b)

/-- State after copying the CIE: `.eh_frame` cursor exhausted, bytes copied. -/
def ehStC9done : EhFrameState PUnit := ⟨0, 16, [], u32Bytes 4 ++ u32Bytes 0, PUnit.unit⟩

theorem writeEhFrameData_empty_hdr_witness :
    writeEhFrameData ehApplyC9 ehEnvC9 ehDataC9 0 0 [] ehStC9 = .ok (8, ehStC9done) ∧
      ((∀ tw : TableWriter, tw.ehFrameHdr = 0 → tw.takeEhFrameHdrEntry = .ok Option.none) ∧
        writeEhFrameData ehApplyC9 ehEnvC9 ehDataC9 0 0 [] ehStC9.eraseHdr =
          .ok ((8, ehStC9done).1, (8, ehStC9done).2.eraseHdr) ∧
        ((8, ehStC9done).2.eraseHdr).ehOut = (8, ehStC9done).2.ehOut ∧
        ((8, ehStC9done).2.eraseHdr).relSt = (8, ehStC9done).2.relSt ∧
        ((8, ehStC9done).2.eraseHdr).ehFrameRemaining = (8, ehStC9done).2.ehFrameRemaining ∧
        ((8, ehStC9done).2.eraseHdr).hdrEntries = []) :=
  ⟨by rfl,
    writeEhFrameData_empty_hdr ehApplyC9 ehEnvC9 ehDataC9 0 0 [] ehStC9 (8, ehStC9done)
      (by rfl)⟩

end ElfWriter
